import Mathlib

/-!
# Verification of the devcert certificate-issuance engine

A shallow embedding of the `devcert` TypeScript sources:

* the ephemeral temp-file registry (`tmpFile` / `tmpClear`),
* the openssl configuration builder (`generateOpensslConf`),
* the certificate issuance engine (`generateKey`, `generateRootCertificate`,
  `generateSignedCertificate`),
* the subprocess wrappers (`exec`, `openssl`, and the introspection module's
  stdout/stderr-checking wrapper),
* the trust-store installer (`installCertificateAuthority` and its platform
  branches, including the NSS database installer), and
* the orchestration entry point (`generateDevCert`).

Asynchronous effectful code is embedded as explicit state passing over a
state `St`; the read-only process environment (platform, oracles for
randomness, subprocess outcomes, `command-exists`, file-existence checks and
glob expansion) is a separate record `Env`.  JavaScript exceptions are
embedded as `Except String`; a thrown error carries the state at the point
of the throw (JS exceptions do not roll back effects).
-/

set_option maxHeartbeats 1000000

namespace Devcert

/-! ## Decimal numerals

`Nat.repr` is the embedding of JavaScript's number-to-string coercion used
by the registry's suffix counter.  We prove it injective, which is what
makes the registry's collision-avoidance loop terminate with a fresh path.
-/

/-- Decimal digit list of a natural number (most significant first),
matching what `Nat.toDigitsCore` computes for base 10. -/
def natDigits (n : Nat) : List Char :=
  if _h : n < 10 then [Nat.digitChar n]
  else natDigits (n / 10) ++ [Nat.digitChar (n % 10)]
  decreasing_by exact Nat.div_lt_self (by omega) (by omega)

/-! ## The modeled file system

Association list from path to contents.  `write` is `fs.writeFile`
(create-or-truncate), `unlink` is `fs.unlink` and rejects with an
`ENOENT`-style error when the path does not exist. -/

structure FS where
  entries : List (String × String)
deriving DecidableEq

def FS.read (fs : FS) (p : String) : Option String :=
  (fs.entries.find? (fun e => decide (e.1 = p))).map (fun e => e.2)

def FS.write (fs : FS) (p c : String) : FS :=
  ⟨(p, c) :: fs.entries.filter (fun e => decide (e.1 ≠ p))⟩

def FS.unlink (fs : FS) (p : String) : Except String FS :=
  match fs.entries.any (fun e => decide (e.1 = p)) with
  | true => .ok ⟨fs.entries.filter (fun e => decide (e.1 ≠ p))⟩
  | false => .error ("ENOENT: no such file " ++ p)

/-- Embeds `try { await fs.unlink(file) } catch (e) { /* do nothing */ }` —
a failed deletion is swallowed. -/
def FS.unlinkCatch (fs : FS) (p : String) : FS :=
  match fs.unlink p with
  | .ok fs' => fs'
  | .error _ => fs

/-! ## Process environment and state

`Env` holds everything the process reads but never writes: the platform,
the home directory, the `command-exists` oracle, the system-file existence
oracle backing `fs.access` for browser profile directories, glob
expansion, and two infinite supplies — one of `Math.random`-derived
strings, one of subprocess outcomes (the `i`-th subprocess spawned gets
outcome `execSupply i`).

`St` is the process-wide mutable state: the temp-file registry
(`tmpPrefix`/`tmpFiles`), the openssl module state (`rndFile`, the per-CN
configuration cache, the in-memory root-CA record), the modeled file
system holding the working files, the supply counters, and ghost
instrumentation (`execLog`, `accessLog`, `sigLog`, `clearCount`) that
records what happened without influencing anything. -/

/-- Outcome of one subprocess invocation.  `error` is a non-zero exit or
spawn failure; `outFile` is the content the toolkit wrote to its `-out`
target (meaningful only for openssl commands that produce a file). -/
structure ExecOutcome where
  error : Option String
  stdout : String
  stderr : String
  outFile : String
deriving DecidableEq

/-- Embeds `ICertificate` of the source (`ca?: string; cert; key; commonName`). -/
structure ICertificate where
  ca : Option String
  cert : String
  key : String
  commonName : String
deriving DecidableEq

/-- Embeds `ICertificateFilePair` of the source. -/
structure ICertificateFilePair where
  certFilePath : String
  keyFilePath : String
deriving DecidableEq

/-- Embeds `ICachedOpensslConf` of the source. -/
structure CachedConf where
  commonName : String
  confPath : String
  databasePath : String
  serialPath : String
deriving DecidableEq

/-- Ghost record of one root-certificate toolkit invocation (`openssl req
… -x509`): the CN passed in `-subj`, the content of the `-key` file at
invocation time, and the certificate the toolkit produced. -/
structure SignEvent where
  commonName : String
  keyBytes : String
  certBytes : String
deriving DecidableEq

structure Env where
  platform : String
  home : String
  commandExistsP : String → Bool
  fileExists : String → Bool
  globExpand : String → List String
  randSupply : Nat → String
  execSupply : Nat → ExecOutcome

structure St where
  tmpPrefix : String
  tmpFiles : Option (List String)
  rndFile : Option String
  cachedConfPaths : List (String × CachedConf)
  cachedRoot : ICertificate
  envSAN : Option String
  fs : FS
  randCount : Nat
  execCount : Nat
  execLog : List String
  accessLog : List String
  sigLog : List SignEvent
  clearCount : Nat

/-- The list of paths allocated in the current registry session. -/
def tmpList (σ : St) : List String :=
  σ.tmpFiles.getD []

/-- Draw the next `Math.random`-derived string. -/
def nextRand (env : Env) (σ : St) : String × St :=
  (env.randSupply σ.randCount, { σ with randCount := σ.randCount + 1 })

/-- Spawn a subprocess: consume the next outcome from the supply and log
the command line. -/
def runExec (env : Env) (cmd : String) (σ : St) : ExecOutcome × St :=
  (env.execSupply σ.execCount,
   { σ with execCount := σ.execCount + 1, execLog := σ.execLog ++ [cmd] })

/-- Embeds `util.promisify(cp.exec)` (child_process-promisified): rejects exactly
when the subprocess reports an error (non-zero exit or spawn failure);
otherwise resolves with the captured output, stderr content
notwithstanding. -/
def exec (env : Env) (cmd : String) (σ : St) : Except String ExecOutcome × St :=
  match runExec env cmd σ with
  | (out, σ) =>
    match out.error with
    | some e => (.error e, σ)
    | none => (.ok out, σ)

/-! ## Ephemeral file registry (`tmpFile` / `tmpClear`) -/

/-- The collision-avoidance `while` loop of `tmpFile`:
`while (tmpFiles.indexOf(tmpFileUnique) !== -1) tmpFileUnique = file + (++uniqueIndex);`
Embedded with explicit fuel; `tmpFile` passes `tmpFiles.length + 1`, which
the pigeonhole argument below shows is always enough for the loop to exit
on its own. -/
def tmpFileUniqueLoop (tmpFiles : List String) (file : String) :
    Nat → Nat → String → String
  | 0, _, tmpFileUnique => tmpFileUnique
  | fuel + 1, uniqueIndex, tmpFileUnique =>
    if tmpFileUnique ∈ tmpFiles then
      tmpFileUniqueLoop tmpFiles file fuel (uniqueIndex + 1) (file ++ Nat.repr (uniqueIndex + 1))
    else
      tmpFileUnique

/-- The candidate tested by the loop at index `i`: `file` itself at index
0, `file + i` afterwards. -/
def tmpCand (file : String) (i : Nat) : String :=
  if i = 0 then file else file ++ Nat.repr i

/-- Embeds `tmpFile(name)`: lazily start a session (fresh random prefix, empty
path list), then return the first `prefix + name(+k)` not yet allocated
and record it. -/
def tmpFile (env : Env) (name : String) (σ0 : St) : String × St :=
  let σ := match σ0.tmpFiles with
    | none =>
      match nextRand env σ0 with
      | (pref, σ1) => { σ1 with tmpPrefix := pref, tmpFiles := some [] }
    | some _ => σ0
  let files := σ.tmpFiles.getD []
  let file := σ.tmpPrefix ++ name
  let tmpFileUnique := tmpFileUniqueLoop files file (files.length + 1) 0 file
  (tmpFileUnique, { σ with tmpFiles := some (files ++ [tmpFileUnique]) })

/-- Embeds `tmpClear()`: delete every allocated path, swallowing per-file
failures, then reset the registry.  When no session is live it does
nothing.  Total by construction — the embedding of "never throws".
`clearCount` is ghost instrumentation counting invocations. -/
def tmpClear (σ : St) : St :=
  match σ.tmpFiles with
  | none => { σ with clearCount := σ.clearCount + 1 }
  | some files =>
    { σ with fs := files.foldl FS.unlinkCatch σ.fs,
             tmpFiles := none,
             clearCount := σ.clearCount + 1 }

/-- The tested and recorded state of the initial process: fresh module
load, nothing allocated, nothing cached. -/
def initSt : St :=
  { tmpPrefix := ""
    tmpFiles := none
    rndFile := none
    cachedConfPaths := []
    cachedRoot := ⟨none, "", "", ""⟩
    envSAN := none
    fs := ⟨[]⟩
    randCount := 0
    execCount := 0
    execLog := []
    accessLog := []
    sigLog := []
    clearCount := 0 }

/-- A concrete well-behaved environment used to exercise the theorems.
Every subprocess succeeds and writes `"K"` to its output file; every
random draw yields `"p"`. -/
def testEnv : Env :=
  { platform := "linux"
    home := "/root"
    commandExistsP := fun _ => true
    fileExists := fun _ => false
    globExpand := fun _ => []
    randSupply := fun _ => "p"
    execSupply := fun _ => ⟨none, "out", "", "K"⟩ }

/-! ## The openssl module: RANDFILE wrapper, configuration builder -/

/-- Embeds `openssl(cmd)` of the issuance module: lazily allocate the `RANDFILE`
through the registry, then run the toolkit through the promisified
`exec` — which rejects exactly on a reported subprocess error, the
stdout/stderr content playing no role. -/
def openssl (env : Env) (cmd : String) (σ0 : St) : Except String ExecOutcome × St :=
  let σ := match σ0.rndFile with
    | none =>
      match tmpFile env ("rnd") σ0 with
      | (f, σ1) => { σ1 with rndFile := some f }
    | some _ => σ0
  exec env ("openssl " ++ cmd) σ

/-- Embeds `str.replace(/\\/g, '\\\\')` — double every backslash so the path
survives the openssl config dialect. -/
def escapeBackslashes (s : String) : String :=
  ⟨s.data.foldr (fun c acc => if c = '\\' then '\\' :: '\\' :: acc else c :: acc) []⟩

/-- Embeds `process.platform === 'win32' ? '\r\n' : '\n'`. -/
def linebreakOf (platform : String) : String :=
  if platform = "win32" then "\r\n" else "\n"

/-- Embeds `str.replace(/\r\n|\r|\n/g, linebreak)`. -/
def normalizeChars (lb : List Char) : List Char → List Char
  | [] => []
  | '\r' :: '\n' :: rest => lb ++ normalizeChars lb rest
  | '\r' :: rest => lb ++ normalizeChars lb rest
  | '\n' :: rest => lb ++ normalizeChars lb rest
  | c :: rest => c :: normalizeChars lb rest

def normalizeLinebreaks (lb : String) (str : String) : String :=
  ⟨normalizeChars lb.data str.data⟩

/-- The openssl configuration template of the source, with the database
and serial paths (backslash-escaped) and the common name interpolated. -/
def opensslConfTemplate (commonName databasePath serialPath : String) : String :=
  String.intercalate ("\n")
    [ "[ ca ]"
    , "# `man ca`"
    , "default_ca = CA_default"
    , ""
    , "[ CA_default ]"
    , "default_md        = sha256"
    , "name_opt          = ca_default"
    , "cert_opt          = ca_default"
    , "policy            = policy_loose"
    , "database          = " ++ escapeBackslashes databasePath
    , "serial            = " ++ escapeBackslashes serialPath
    , "prompt            = no"
    , ""
    , "[ policy_loose ]"
    , "# Only require minimal information for development certificates"
    , "commonName              = supplied"
    , ""
    , "[ req ]"
    , "# Options for the `req` tool (`man req`)."
    , "default_bits        = 2048"
    , "distinguished_name  = req_distinguished_name"
    , "string_mask         = utf8only"
    , ""
    , "# SHA-1 is deprecated, so use SHA-2 instead."
    , "default_md          = sha256"
    , ""
    , "# Extension to add when the -x509 option is used."
    , "x509_extensions     = v3_ca"
    , ""
    , "[ req_distinguished_name ]"
    , "# See <https://en.wikipedia.org/wiki/Certificate_signing_request>."
    , "commonName                      = Common Name"
    , ""
    , "[ v3_ca ]"
    , "# Extensions for a typical CA (`man x509v3_config`)."
    , "subjectKeyIdentifier = hash"
    , "authorityKeyIdentifier = keyid:always,issuer"
    , "basicConstraints = critical, CA:true"
    , "keyUsage = critical, digitalSignature, cRLSign, keyCertSign"
    , ""
    , "[ server_cert ]"
    , "# Extensions for server certificates (`man x509v3_config`)."
    , "basicConstraints = CA:FALSE"
    , "nsCertType = server"
    , "nsComment = \"" ++ commonName ++ " Issued Certificate\""
    , "subjectKeyIdentifier = hash"
    , "authorityKeyIdentifier = keyid,issuer:always"
    , "keyUsage = critical, digitalSignature, keyEncipherment"
    , "extendedKeyUsage = serverAuth"
    , "subjectAltName = @alt_names"
    , ""
    , "[ alt_names ]"
    , "DNS.1 = " ++ commonName
    , "DNS.2 = localhost"
    , "DNS.3 = localhost.localdomain"
    , "DNS.4 = lvh.me"
    , "DNS.5 = *.lvh.me"
    , "DNS.6 = [::1]"
    , "IP.1 = 127.0.0.1"
    , "IP.2 = fe80::1"
    ] ++ "\n"

/-- Lookup in the per-CN configuration cache (`cachedConfPaths.get`). -/
def lookupConf (m : List (String × CachedConf)) (commonName : String) : Option CachedConf :=
  (m.find? (fun e => decide (e.1 = commonName))).map (fun e => e.2)

/-- Embeds `generateOpensslConf(commonName)`: on a cache miss allocate the
config, database and serial files, write all three (template text
linebreak-normalized, empty issuance ledger, random hex serial seed) and
cache the configuration; on a hit return the cached path untouched. -/
def generateOpensslConf (env : Env) (commonName : String) (σ : St) : String × St :=
  match lookupConf σ.cachedConfPaths commonName with
  | some conf => (conf.confPath, σ)
  | none =>
    match tmpFile env ("openssl.conf") σ with
    | (confPath, σ1) =>
      match tmpFile env ("index.txt") σ1 with
      | (databasePath, σ2) =>
        match tmpFile env ("serial") σ2 with
        | (serialPath, σ3) =>
          let conf : CachedConf := ⟨commonName, confPath, databasePath, serialPath⟩
          let confText := opensslConfTemplate commonName databasePath serialPath
          match nextRand env σ3 with
          | (serialSeed, σ4) =>
            let σ5 := { σ4 with fs :=
              ((σ4.fs.write confPath
                  (normalizeLinebreaks (linebreakOf env.platform) confText)).write
                databasePath ("")).write serialPath serialSeed }
            let σ6 := { σ5 with cachedConfPaths := (commonName, conf) :: σ5.cachedConfPaths }
            (conf.confPath, σ6)

/-! ## Introspection module wrapper (x509 helper) -/

/-- The introspection module's own `openssl(cmd, stdin?)` wrapper, built
directly on `child_process.exec` with a callback `(error, stdout,
stderr)`: reject with the error when one is reported; otherwise treat an
empty stdout together with a non-empty stderr as a failure carrying the
stderr text even though the exit code was zero; otherwise resolve with
stdout.  Exactly one subprocess is spawned per call. -/
def opensslIntrospect (env : Env) (cmd : String) (σ : St) : Except String String × St :=
  match runExec env ("openssl " ++ cmd) σ with
  | (out, σ) =>
    match out.error with
    | some e => (.error e, σ)
    | none =>
      if out.stdout = "" ∧ out.stderr ≠ "" then (.error out.stderr, σ)
      else (.ok out.stdout, σ)

/-! ## Certificate issuance engine -/

/-- Embeds `generateKey()`: allocate a fresh ephemeral key file; if key bytes are
cached write them out (mode 400), otherwise have the toolkit generate a
2048-bit key into the file, read it back into the cache and restrict
permissions (permission bits are not modeled). -/
def generateKey (env : Env) (σ0 : St) : Except String String × St :=
  match tmpFile env ("key") σ0 with
  | (keyFile, σ) =>
    if σ.cachedRoot.key ≠ "" then
      (.ok keyFile, { σ with fs := σ.fs.write keyFile σ.cachedRoot.key })
    else
      match openssl env ("genrsa -out " ++ keyFile ++ " 2048") σ with
      | (.error e, σ) => (.error e, σ)
      | (.ok out, σ) =>
        let σ := { σ with fs := σ.fs.write keyFile out.outFile }
        match σ.fs.read keyFile with
        | none => (.error ("ENOENT: no such file " ++ keyFile), σ)
        | some keyBytes =>
          (.ok keyFile, { σ with cachedRoot := { σ.cachedRoot with key := keyBytes } })

/-- Embeds `generateRootCertificate(commonName, opensslConfPath)`: allocate a
cert path and a key file; if the cached CA record is for this exact CN,
write the cached certificate bytes out (no toolkit invocation);
otherwise self-sign a fresh root with the toolkit and update the cached
certificate together with the CN.  The ghost `sigLog` records each
self-signing invocation with the CN and the key-file content it used. -/
def generateRootCertificate (env : Env) (commonName opensslConfPath : String) (σ0 : St) :
    Except String ICertificateFilePair × St :=
  match tmpFile env (commonName ++ ".crt") σ0 with
  | (certFilePath, σ) =>
    match generateKey env σ with
    | (.error e, σ) => (.error e, σ)
    | (.ok keyFilePath, σ) =>
      if σ.cachedRoot.commonName = commonName then
        (.ok ⟨certFilePath, keyFilePath⟩,
         { σ with fs := σ.fs.write certFilePath σ.cachedRoot.cert })
      else
        let keyBytes := (σ.fs.read keyFilePath).getD ("")
        match openssl env ("req -config " ++ opensslConfPath ++ " -key " ++ keyFilePath
            ++ " -out " ++ certFilePath
            ++ " -new -subj \"/CN=" ++ commonName ++ "\" -x509 -days 7000 -extensions v3_ca") σ with
        | (.error e, σ) => (.error e, σ)
        | (.ok out, σ) =>
          let σ := { σ with fs := σ.fs.write certFilePath out.outFile }
          match σ.fs.read certFilePath with
          | none => (.error ("ENOENT: no such file " ++ certFilePath), σ)
          | some certBytes =>
            (.ok ⟨certFilePath, keyFilePath⟩,
             { σ with
               cachedRoot := { σ.cachedRoot with cert := certBytes, commonName := commonName },
               sigLog := ⟨commonName, keyBytes, certBytes⟩ :: σ.sigLog })

/-- Embeds `generateSignedCertificate(commonName, opensslConfPath, caPaths)`:
fresh leaf key, CSR, then CA-sign with the root pair through a throwaway
output directory (`mkdirp`/`rimraf` of the scratch directory are not
tracked by the modeled file system). -/
def generateSignedCertificate (env : Env) (commonName opensslConfPath : String)
    (caPaths : ICertificateFilePair) (σ0 : St) : Except String ICertificateFilePair × St :=
  match generateKey env σ0 with
  | (.error e, σ) => (.error e, σ)
  | (.ok keyFilePath, σ) =>
    let σ := { σ with envSAN := some commonName }
    match tmpFile env (commonName ++ ".csr") σ with
    | (csrFile, σ) =>
      match openssl env ("req -config " ++ opensslConfPath ++ " -subj \"/CN=" ++ commonName
          ++ "\" -key " ++ keyFilePath ++ " -out " ++ csrFile ++ " -new") σ with
      | (.error e, σ) => (.error e, σ)
      | (.ok out, σ) =>
        let σ := { σ with fs := σ.fs.write csrFile out.outFile }
        match tmpFile env (commonName ++ ".crt") σ with
        | (certFilePath, σ) =>
          match nextRand env σ with
          | (caCertsDir, σ) =>
            match openssl env ("ca -config " ++ opensslConfPath ++ " -in " ++ csrFile
                ++ " -out " ++ certFilePath ++ " -outdir " ++ caCertsDir
                ++ " -keyfile " ++ caPaths.keyFilePath ++ " -cert " ++ caPaths.certFilePath
                ++ " -notext -md sha256 -days 7000 -batch -extensions server_cert") σ with
            | (.error e, σ) => (.error e, σ)
            | (.ok out2, σ) =>
              (.ok ⟨certFilePath, keyFilePath⟩,
               { σ with fs := σ.fs.write certFilePath out2.outFile })

/-! ## Trust store installer -/

def pathJoin (a b : String) : String := a ++ "/" ++ b

/-- Embeds `fs.access(path)`: resolves when the (system) path exists, rejects
otherwise.  The check is recorded in the ghost `accessLog`. -/
def access (env : Env) (p : String) (σ : St) : Except String Unit × St :=
  let σ1 := { σ with accessLog := σ.accessLog ++ [p] }
  if env.fileExists p then (.ok (), σ1)
  else (.error ("ENOENT: no such file " ++ p), σ1)

/-- Embeds `waitForUser()`: suspend until the operator presses enter — no effect
on the modeled state. -/
def waitForUser (σ : St) : St := σ

/-- Embeds `openCertificateInFirefox(rootCertPath, firefoxPath)`: start the local
HTTP fallback server on an ephemeral port (not modeled), prompt the
operator, and launch the browser — the launch is not awaited, so its
outcome is ignored. -/
def openCertificateInFirefox (env : Env) (firefoxPath : String) (σ0 : St) : St :=
  match nextRand env σ0 with
  | (port, σ) =>
    let σ := waitForUser σ
    match runExec env (firefoxPath ++ " http://localhost:" ++ port) σ with
    | (_, σ) => waitForUser σ

/-- Embeds `lookupOrInstallCertutil()`: on darwin with Homebrew, resolve (or
install, then resolve) the NSS certutil path; on linux, when certutil is
on the PATH, apt-install the NSS tools and resolve via `which`; otherwise
produce no path.  (The JS reads `.toString().trim()` of the resolved exec
result; we model the trimmed stdout.) -/
def lookupOrInstallCertutil (env : Env) (σ0 : St) : Except String (Option String) × St :=
  if env.platform = "darwin" && env.commandExistsP ("brew") then
    match exec env ("brew --prefix nss") σ0 with
    | (.ok out, σ) => (.ok (some (pathJoin out.stdout.trim ("bin/certutil"))), σ)
    | (.error _, σ) =>
      match exec env ("brew install nss") σ with
      | (.error e, σ) => (.error e, σ)
      | (.ok _, σ) =>
        match exec env ("brew --prefix nss") σ with
        | (.error e, σ) => (.error e, σ)
        | (.ok out, σ) => (.ok (some (pathJoin out.stdout.trim ("bin/certutil"))), σ)
  else if env.platform = "linux" && env.commandExistsP ("certutil") then
    match exec env ("sudo apt install libnss3-tools") σ0 with
    | (.error e, σ) => (.error e, σ)
    | (.ok _, σ) =>
      match exec env ("which certutil") σ with
      | (.error e, σ) => (.error e, σ)
      | (.ok out, σ) => (.ok (some out.stdout.trim), σ)
  else
    (.ok none, σ0)

/-- The certutil command for a legacy (`cert8.db`) NSS database
directory. -/
def certutilLegacyCmd (certutilPath rootCertPath commonName dir : String) : String :=
  certutilPath ++ " -A -d \"" ++ dir ++ "\" -t \x27C,,\x27 -i "
    ++ rootCertPath ++ " -n " ++ commonName

/-- The certutil command for a modern (`cert9.db`) NSS database directory,
with the `sql:` backend prefix. -/
def certutilModernCmd (certutilPath rootCertPath commonName dir : String) : String :=
  certutilPath ++ " -A -d \"sql:" ++ dir ++ "\" -t \x27C,,\x27 -i "
    ++ rootCertPath ++ " -n " ++ commonName

/-- The catch block of one NSS directory attempt:
`try { access(cert9); exec(modern) } catch {}`. -/
def nssDirFallback (env : Env) (certutilPath rootCertPath commonName potentialNSSDBDir : String)
    (σ0 : St) : St :=
  match access env (pathJoin potentialNSSDBDir ("cert9.db")) σ0 with
  | (.ok _, σ) =>
    (exec env (certutilModernCmd certutilPath rootCertPath commonName potentialNSSDBDir) σ).2
  | (.error _, σ) => σ

/-- One directory's installation attempt:
`try { access(cert8); exec(legacy) } catch { try { access(cert9); exec(modern) } catch {} }`.
Total: every failure is swallowed inside the handler. -/
def nssDirAttempt (env : Env) (certutilPath rootCertPath commonName potentialNSSDBDir : String)
    (σ0 : St) : St :=
  match access env (pathJoin potentialNSSDBDir ("cert8.db")) σ0 with
  | (.ok _, σ) =>
    match exec env (certutilLegacyCmd certutilPath rootCertPath commonName potentialNSSDBDir) σ with
    | (.ok _, σ) => σ
    | (.error _, σ) => nssDirFallback env certutilPath rootCertPath commonName potentialNSSDBDir σ
  | (.error _, σ) => nssDirFallback env certutilPath rootCertPath commonName potentialNSSDBDir σ

/-- Embeds `addCertificateToNSSCertDB(commonName, rootCertPath, nssDirGlob,
checkForOpenFirefox)`: resolve certutil (fail the whole call when it is
unavailable), optionally check the process list for a running Firefox and
wait for the operator, then expand the glob and attempt every candidate
directory, one attempt never affecting another.  (`Promise.all` over the
directories is embedded as a left fold; the attempts are pairwise
independent.) -/
def addCertificateToNSSCertDB (env : Env) (commonName rootCertPath nssDirGlob : String)
    (checkForOpenFirefox : Bool) (σ0 : St) : Except String Unit × St :=
  match lookupOrInstallCertutil env σ0 with
  | (.error e, σ) => (.error e, σ)
  | (.ok none, σ) => (.error ("certutil not available"), σ)
  | (.ok (some certutilPath), σ) =>
    let go (σ : St) : Except String Unit × St :=
      (.ok (), (env.globExpand nssDirGlob).foldl
        (fun σ d => nssDirAttempt env certutilPath rootCertPath commonName d σ) σ)
    if checkForOpenFirefox then
      match exec env ("ps aux") σ with
      | (.error e, σ) => (.error e, σ)
      | (.ok out, σ) =>
        let σ := if out.stdout.containsSubstr ("firefox") then waitForUser σ else σ
        go σ
    else
      go σ

/-- macOS branch: system keychain via `security add-trusted-cert`, then a
best-effort NSS attempt whose failure is swallowed (the interactive
fallback is commented out in this revision). -/
def addToMacTrustStores (env : Env) (commonName rootCertPath : String) (σ0 : St) :
    Except String Unit × St :=
  match exec env ("sudo security add-trusted-cert -d -r trustRoot -k /Library/Keychains/System.keychain -p ssl -p basic \"" ++ rootCertPath ++ "\"") σ0 with
  | (.error e, σ) => (.error e, σ)
  | (.ok _, σ) =>
    match addCertificateToNSSCertDB env commonName rootCertPath
        (pathJoin env.home ("Library/Application Support/Firefox/Profiles/*")) true σ with
    | (.ok _, σ) => (.ok (), σ)
    | (.error _, σ) => (.ok (), σ)

/-- Linux branch: copy the root certificate into the two system
certificate directories (note the stray `\x7d` the source appends to the
`.pem` path), rebuild the aggregate bundle, attempt Firefox NSS
installation with the interactive fallback, then attempt the Chromium
user NSS database unconditionally (its failure propagates). -/
def addToLinuxTrustStores (env : Env) (commonName rootCertPath : String) (σ0 : St) :
    Except String Unit × St :=
  match exec env ("sudo cp " ++ rootCertPath ++ " /etc/ssl/certs/" ++ commonName ++ ".pem\x7d") σ0 with
  | (.error e, σ) => (.error e, σ)
  | (.ok _, σ) =>
    match exec env ("sudo cp " ++ rootCertPath ++ " /usr/local/share/ca-certificates/" ++ commonName ++ ".crt") σ with
    | (.error e, σ) => (.error e, σ)
    | (.ok _, σ) =>
      match exec env ("sudo update-ca-certificates") σ with
      | (.error e, σ) => (.error e, σ)
      | (.ok _, σ) =>
        let σ := match addCertificateToNSSCertDB env commonName rootCertPath
            (pathJoin env.home (".mozilla/firefox/*")) true σ with
          | (.ok _, σ) => σ
          | (.error _, σ) => openCertificateInFirefox env ("firefox") σ
        match addCertificateToNSSCertDB env commonName rootCertPath
            (pathJoin env.home (".pki/nssdb")) false σ with
        | (.error e, σ) => (.error e, σ)
        | (.ok _, σ) => (.ok (), σ)

/-- Windows branch: native certutil into the user root store, swallowing
any failure, then the interactive Firefox flow. -/
def addToWindowsTrustStores (env : Env) (rootCertPath : String) (σ0 : St) :
    Except String Unit × St :=
  let σ := match exec env ("certutil -addstore -user root " ++ rootCertPath) σ0 with
    | (.ok _, σ) => σ
    | (.error _, σ) => σ
  (.ok (), openCertificateInFirefox env ("start firefox") σ)

/-- Embeds `installCertificateAuthority(commonName, rootCertPath)`: three-way
platform dispatch; an unsupported platform fails immediately. -/
def installCertificateAuthority (env : Env) (commonName rootCertPath : String) (σ : St) :
    Except String Unit × St :=
  if env.platform = "darwin" then addToMacTrustStores env commonName rootCertPath σ
  else if env.platform = "linux" then addToLinuxTrustStores env commonName rootCertPath σ
  else if env.platform = "win32" then addToWindowsTrustStores env rootCertPath σ
  else (.error ("Unable to automatically add a root certificate for "
    ++ env.platform ++ " platform."), σ)

/-! ## Orchestration entry point -/

/-- JS line-terminator code points, which `.` in a regex without the `s`
flag does not match. -/
def isLineTerminator (c : Char) : Bool :=
  c = '\n' || c = '\r' || c = Char.ofNat 0x2028 || c = Char.ofNat 0x2029

/-- Embeds `commonName.match(/^(.|\.){1,64}$/)`: every character must be matched
by `.` (anything but a line terminator) or by the literal-dot escape, and
the anchored repetition admits 1 to 64 characters. -/
def validCommonName (commonName : String) : Bool :=
  1 ≤ commonName.length && commonName.length ≤ 64
    && commonName.data.all (fun c => !(isLineTerminator c) || c = '.')

/-- The `try` block of `generateDevCert`: configuration, root
certificate, trust-store installation, leaf issuance, then the three
file reads producing the returned bundle. -/
def generateDevCertBody (env : Env) (commonName : String) (σ0 : St) :
    Except String ICertificate × St :=
  match generateOpensslConf env commonName σ0 with
  | (opensslConfPath, σ) =>
    match generateRootCertificate env commonName opensslConfPath σ with
    | (.error e, σ) => (.error e, σ)
    | (.ok caPaths, σ) =>
      match installCertificateAuthority env commonName caPaths.certFilePath σ with
      | (.error e, σ) => (.error e, σ)
      | (.ok _, σ) =>
        match generateSignedCertificate env commonName opensslConfPath caPaths σ with
        | (.error e, σ) => (.error e, σ)
        | (.ok pair, σ) =>
          match σ.fs.read pair.keyFilePath, σ.fs.read pair.certFilePath,
              σ.fs.read caPaths.certFilePath with
          | some key, some cert, some ca =>
            (.ok ⟨some ca, cert, key, commonName⟩, σ)
          | _, _, _ => (.error ("ENOENT: reading issued files failed"), σ)

/-- Embeds `generateDevCert(commonName)`: fail fast when openssl is missing or
the common name is invalid; otherwise run the issuance pipeline inside
`try { … } finally { await tmpClear() }`, so the registry is cleared on
the success exit and on every thrown failure alike. -/
def generateDevCert (env : Env) (commonName : String) (σ : St) :
    Except String ICertificate × St :=
  if !(env.commandExistsP ("openssl")) then
    (.error ("Unable to find openssl - make sure it is installed and available in your PATH"), σ)
  else if !(validCommonName commonName) then
    (.error ("Invalid Common Name " ++ commonName ++ "."), σ)
  else
    match generateDevCertBody env commonName σ with
    | (r, σ1) => (r, tmpClear σ1)

/-! ## Claim-support definitions -/

/-- A sequence of root-certificate generations. -/
def runRoots (env : Env) (reqs : List (String × String)) (σ : St) : St :=
  reqs.foldl (fun σ rq => (generateRootCertificate env rq.1 rq.2 σ).2) σ

/-- A well-behaved toolkit never writes an empty output file on
success (real `openssl genrsa`/`req` always produce non-empty PEM). -/
def WellBehaved (env : Env) : Prop :=
  ∀ i, (env.execSupply i).outFile ≠ ""

/-- The CA-cache consistency invariant: either the cache is still empty
(no CN, no certificate), or some recorded self-signing invocation
produced exactly the cached certificate for exactly the cached CN using a
key file holding exactly the cached key bytes — so the cached key and
certificate are never a mixture from two different CNs. -/
def RootInv (σ : St) : Prop :=
  (σ.cachedRoot.commonName = "" ∧ σ.cachedRoot.cert = "")
  ∨ (σ.cachedRoot.key ≠ ""
     ∧ ∃ e ∈ σ.sigLog, e.commonName = σ.cachedRoot.commonName
        ∧ e.certBytes = σ.cachedRoot.cert ∧ e.keyBytes = σ.cachedRoot.key)

/-- Environment whose toolkit always exits zero with an empty stdout and
a non-empty stderr. -/
def stderrOnlyEnv : Env :=
  { testEnv with execSupply := fun _ => ⟨none, "", "unable to load certificate", "K"⟩ }

/-- Environment whose toolkit always fails with a non-zero exit. -/
def failEnv : Env :=
  { testEnv with
    execSupply := fun _ => ⟨some ("Command failed: openssl req"), "", "req: bad subject", ""⟩ }

/-- Environment where only the openssl binary is on the PATH (no brew,
no certutil), so NSS installation falls back everywhere. -/
def onlyOpensslEnv : Env :=
  { testEnv with commandExistsP := fun c => decide (c = "openssl") }

/-- Environment with no openssl on the PATH. -/
def noOpensslEnv : Env :=
  { testEnv with commandExistsP := fun _ => false }

/-- Environment where every profile directory holds both NSS markers and
every certutil invocation fails. -/
def bothMarkersEnv : Env :=
  { testEnv with
    fileExists := fun _ => true,
    execSupply := fun _ => ⟨some ("certutil: could not add certificate"), "", "", ""⟩ }

/-- Environment where only the modern NSS marker of `/prof` exists. -/
def modernOnlyEnv : Env :=
  { testEnv with fileExists := fun p => decide (p = "/prof/cert9.db") }

/-- Concrete state with one allocated ephemeral file that has actually
been created on disk. -/
def clearWitnessSt : St :=
  { (tmpFile testEnv ("key") initSt).2 with
    fs := (tmpFile testEnv ("key") initSt).2.fs.write ("pkey") ("SECRET") }

/-! ## Theorems -/

theorem natDigits_ne_nil (n : Nat) : natDigits n ≠ [] := by
  by_cases h : n < 10
  · rw [natDigits, dif_pos h]
    simp
  · rw [natDigits, dif_neg h]
    simp

theorem natDigits_eq (n : Nat) :
    natDigits n = (if n < 10 then [] else natDigits (n / 10)) ++ [Nat.digitChar (n % 10)] := by
  by_cases h : n < 10
  · rw [natDigits, dif_pos h, if_pos h, Nat.mod_eq_of_lt h]
    rfl
  · rw [natDigits, dif_neg h, if_neg h]

theorem digitChar_inj : ∀ a < 10, ∀ b < 10, Nat.digitChar a = Nat.digitChar b → a = b := by
  decide

theorem natDigits_inj : ∀ m n : Nat, natDigits m = natDigits n → m = n := by
  intro m
  induction m using Nat.strong_induction_on with
  | _ m ih =>
    intro n h
    rw [natDigits_eq m, natDigits_eq n] at h
    have hlast := List.append_inj_right' h (by simp)
    have hpre : (if m < 10 then [] else natDigits (m / 10)) =
        (if n < 10 then [] else natDigits (n / 10)) :=
      List.append_inj_left' h (by simp)
    have hd : m % 10 = n % 10 := by
      have := List.head_eq_of_cons_eq hlast
      exact digitChar_inj _ (Nat.mod_lt _ (by omega)) _ (Nat.mod_lt _ (by omega)) this
    by_cases hm : m < 10
    · by_cases hn : n < 10
      · rw [Nat.mod_eq_of_lt hm, Nat.mod_eq_of_lt hn] at hd
        exact hd
      · rw [if_pos hm, if_neg hn] at hpre
        exact absurd hpre.symm (natDigits_ne_nil _)
    · by_cases hn : n < 10
      · rw [if_neg hm, if_pos hn] at hpre
        exact absurd hpre (natDigits_ne_nil _)
      · rw [if_neg hm, if_neg hn] at hpre
        have hdiv : m / 10 = n / 10 := ih (m / 10) (Nat.div_lt_self (by omega) (by omega)) _ hpre
        omega

theorem toDigitsCore_eq_natDigits :
    ∀ (fuel n : Nat) (ds : List Char), n < 10 ^ (fuel + 1) →
      Nat.toDigitsCore 10 (fuel + 1) n ds = natDigits n ++ ds := by
  intro fuel
  induction fuel with
  | zero =>
    intro n ds h
    norm_num at h
    have h0 : n / 10 = 0 := Nat.div_eq_of_lt h
    rw [Nat.toDigitsCore]
    simp only [h0, if_pos rfl]
    rw [natDigits_eq, if_pos h]
    simp
  | succ fuel ih =>
    intro n ds h
    rw [Nat.toDigitsCore]
    by_cases h0 : n / 10 = 0
    · simp only [h0, if_pos rfl]
      have hn : n < 10 := (Nat.div_eq_zero_iff (by omega)).1 h0
      rw [natDigits_eq, if_pos hn]
      simp
    · simp only [h0, if_neg h0]
      have hgt : ¬ n < 10 := by
        intro hlt
        exact h0 (Nat.div_eq_of_lt hlt)
      have hdiv : n / 10 < 10 ^ (fuel + 1) := by
        rw [Nat.div_lt_iff_lt_mul (by omega : 0 < 10)]
        calc n < 10 ^ (fuel + 1 + 1) := h
        _ = 10 ^ (fuel + 1) * 10 := by rw [pow_succ]
      rw [ih (n / 10) _ hdiv]
      rw [natDigits_eq n, if_neg hgt]
      simp

theorem repr_eq_natDigits (n : Nat) : Nat.repr n = ⟨natDigits n⟩ := by
  show (Nat.toDigits 10 n).asString = _
  rw [Nat.toDigits, toDigitsCore_eq_natDigits n n [] (by
    calc n < 10 ^ n := Nat.lt_pow_self (by omega) n
    _ ≤ 10 ^ (n + 1) := Nat.pow_le_pow_right (by omega) (by omega))]
  simp [List.asString]

theorem string_mk_inj {a b : List Char} (h : (⟨a⟩ : String) = ⟨b⟩) : a = b := by
  cases h
  rfl

theorem natRepr_inj {m n : Nat} (h : Nat.repr m = Nat.repr n) : m = n := by
  rw [repr_eq_natDigits, repr_eq_natDigits] at h
  exact natDigits_inj _ _ (string_mk_inj h)

theorem natRepr_data_ne_nil (n : Nat) : (Nat.repr n).data ≠ [] := by
  rw [repr_eq_natDigits]
  exact natDigits_ne_nil n

theorem find?_filter_ne (l : List (String × String)) (p q : String) (h : q ≠ p) :
    List.find? (fun e => decide (e.1 = q)) (l.filter (fun e => decide (e.1 ≠ p)))
      = List.find? (fun e => decide (e.1 = q)) l := by
  induction l with
  | nil => rfl
  | cons e rest ih =>
    by_cases he : e.1 = p
    · rw [List.filter_cons_of_neg (by simp [he])]
      rw [List.find?_cons_of_neg _ (by simp [he, Ne.symm h])]
      exact ih
    · rw [List.filter_cons_of_pos (by simp [he])]
      by_cases hq : e.1 = q
      · rw [List.find?_cons_of_pos _ (by simp [hq]), List.find?_cons_of_pos _ (by simp [hq])]
      · rw [List.find?_cons_of_neg _ (by simp [hq]), List.find?_cons_of_neg _ (by simp [hq])]
        exact ih

theorem FS.read_write_self (fs : FS) (p c : String) : (fs.write p c).read p = some c := by
  simp [FS.read, FS.write, List.find?]

theorem FS.read_write_other (fs : FS) (p c q : String) (h : q ≠ p) :
    (fs.write p c).read q = fs.read q := by
  simp only [FS.read, FS.write]
  rw [List.find?_cons_of_neg _ (by simp [Ne.symm h])]
  rw [find?_filter_ne _ _ _ h]

theorem FS.read_eq_none_iff (fs : FS) (p : String) :
    fs.read p = none ↔ ∀ e ∈ fs.entries, e.1 ≠ p := by
  simp only [FS.read, Option.map_eq_none', List.find?_eq_none, decide_eq_true_eq]

theorem FS.unlinkCatch_cases (fs : FS) (p : String) :
    ((fs.unlinkCatch p).entries = fs.entries.filter (fun e => decide (e.1 ≠ p)))
    ∨ (fs.unlinkCatch p = fs ∧ fs.read p = none) := by
  cases hany : fs.entries.any (fun e => decide (e.1 = p)) with
  | true =>
    left
    simp [FS.unlinkCatch, FS.unlink, hany]
  | false =>
    right
    refine ⟨by simp [FS.unlinkCatch, FS.unlink, hany], ?_⟩
    rw [FS.read_eq_none_iff]
    intro e he
    rw [List.any_eq_false] at hany
    have := hany e he
    simpa using this

theorem FS.read_unlinkCatch_self (fs : FS) (p : String) : (fs.unlinkCatch p).read p = none := by
  rcases FS.unlinkCatch_cases fs p with h | ⟨h1, h2⟩
  · rw [FS.read_eq_none_iff, h]
    intro e he
    simp only [List.mem_filter, decide_eq_true_eq] at he
    exact he.2
  · rw [h1]
    exact h2

theorem FS.read_unlinkCatch_none (fs : FS) (p q : String) (h : fs.read q = none) :
    (fs.unlinkCatch p).read q = none := by
  rcases FS.unlinkCatch_cases fs p with h' | ⟨h1, _⟩
  · rw [FS.read_eq_none_iff] at h ⊢
    rw [h']
    intro e he
    exact h e (List.mem_of_mem_filter he)
  · rw [h1]
    exact h

/-! ## Registry lemmas -/

theorem string_append_data (a b : String) : (a ++ b).data = a.data ++ b.data :=
  String.data_append a b

theorem string_append_left_cancel {a b c : String} (h : a ++ b = a ++ c) : b = c := by
  have hd : a.data ++ b.data = a.data ++ c.data := by
    rw [← string_append_data, ← string_append_data, h]
  have h2 := List.append_cancel_left hd
  have hb : b = ⟨b.data⟩ := rfl
  have hc : c = ⟨c.data⟩ := rfl
  rw [hb, hc, h2]

theorem append_repr_ne_self (file : String) (i : Nat) : file ++ Nat.repr i ≠ file := by
  intro h
  have hd : file.data ++ (Nat.repr i).data = file.data := congrArg String.data h
  have : file.data ++ (Nat.repr i).data = file.data ++ [] := by simpa using hd
  exact natRepr_data_ne_nil i (List.append_cancel_left this)

theorem tmpCand_inj (file : String) : Function.Injective (tmpCand file) := by
  intro i j h
  unfold tmpCand at h
  by_cases hi : i = 0
  · by_cases hj : j = 0
    · omega
    · rw [if_pos hi, if_neg hj] at h
      exact absurd h.symm (append_repr_ne_self file j)
  · by_cases hj : j = 0
    · rw [if_neg hi, if_pos hj] at h
      exact absurd h (append_repr_ne_self file i)
    · rw [if_neg hi, if_neg hj] at h
      exact natRepr_inj (string_append_left_cancel h)

/-- Pigeonhole: among the first `files.length + 1` candidates at least one
is not already allocated. -/
theorem exists_free_tmpCand (files : List String) (file : String) :
    ∃ k, k ≤ files.length ∧ tmpCand file k ∉ files := by
  by_contra hcon
  push_neg at hcon
  have hsub : ((List.range (files.length + 1)).map (tmpCand file)) ⊆ files := by
    intro x hx
    rcases List.mem_map.1 hx with ⟨k, hk, rfl⟩
    exact hcon k (by simpa using Nat.lt_succ_iff.1 (List.mem_range.1 hk))
  have hnd : ((List.range (files.length + 1)).map (tmpCand file)).Nodup :=
    (List.nodup_range _).map (tmpCand_inj file)
  have := (hnd.subperm hsub).length_le
  simp only [List.length_map, List.length_range] at this
  omega

/-- If some candidate at index `≥ idx` within the fuel window is free, the
loop started at `idx` returns a path not in `files`. -/
theorem tmpFileUniqueLoop_not_mem (files : List String) (file : String) :
    ∀ (fuel idx : Nat), (∃ k, idx ≤ k ∧ k < idx + fuel ∧ tmpCand file k ∉ files) →
      tmpFileUniqueLoop files file fuel idx (tmpCand file idx) ∉ files := by
  intro fuel
  induction fuel with
  | zero =>
    intro idx ⟨k, h1, h2, _⟩
    omega
  | succ fuel ih =>
    intro idx ⟨k, h1, h2, h3⟩
    rw [tmpFileUniqueLoop]
    by_cases hmem : tmpCand file idx ∈ files
    · rw [if_pos hmem]
      have hcand : file ++ Nat.repr (idx + 1) = tmpCand file (idx + 1) := by
        unfold tmpCand
        rw [if_neg (by omega)]
      rw [hcand]
      apply ih
      refine ⟨k, ?_, by omega, h3⟩
      rcases Nat.eq_or_lt_of_le h1 with rfl | h
      · exact absurd hmem h3
      · omega
    · rw [if_neg hmem]
      exact hmem

/-- If every candidate from `idx` up to (excluding) `K` is allocated and
the candidate at `K` is free, the loop returns exactly candidate `K`. -/
theorem tmpFileUniqueLoop_first_free (files : List String) (file : String) :
    ∀ (fuel idx K : Nat), idx ≤ K → K < idx + fuel →
      (∀ j, idx ≤ j → j < K → tmpCand file j ∈ files) → tmpCand file K ∉ files →
      tmpFileUniqueLoop files file fuel idx (tmpCand file idx) = tmpCand file K := by
  intro fuel
  induction fuel with
  | zero =>
    intro idx K h1 h2
    omega
  | succ fuel ih =>
    intro idx K h1 h2 hall hfree
    rw [tmpFileUniqueLoop]
    rcases Nat.eq_or_lt_of_le h1 with rfl | hlt
    · rw [if_neg hfree]
    · rw [if_pos (hall idx le_rfl hlt)]
      have hcand : file ++ Nat.repr (idx + 1) = tmpCand file (idx + 1) := by
        unfold tmpCand
        rw [if_neg (by omega)]
      rw [hcand]
      exact ih (idx + 1) K hlt (by omega) (fun j hj1 hj2 => hall j (by omega) hj2) hfree

theorem tmpCand_zero (file : String) : tmpCand file 0 = file := rfl

/-- The path returned by `tmpFile` is never one already allocated in the
current session. -/
theorem tmpFile_fresh (env : Env) (name : String) (σ : St) :
    (tmpFile env name σ).1 ∉ tmpList σ := by
  unfold tmpFile tmpList
  cases hses : σ.tmpFiles with
  | none => simp [nextRand]
  | some files =>
    simp only [hses, Option.getD_some]
    rcases exists_free_tmpCand files (σ.tmpPrefix ++ name) with ⟨k, hk, hfree⟩
    have := tmpFileUniqueLoop_not_mem files (σ.tmpPrefix ++ name) (files.length + 1) 0
      ⟨k, by omega, by omega, hfree⟩
    rw [tmpCand_zero] at this
    exact this

/-- Embeds `tmpFile` appends the returned path to the session list (and touches
no other component of the registry except, on session start, the fresh
prefix). -/
theorem tmpFile_tmpFiles (env : Env) (name : String) (σ : St) :
    (tmpFile env name σ).2.tmpFiles = some (tmpList σ ++ [(tmpFile env name σ).1]) := by
  unfold tmpFile tmpList
  cases hses : σ.tmpFiles with
  | none => simp [nextRand]
  | some files => simp [hses]

theorem tmpFile_mem (env : Env) (name : String) (σ : St) :
    (tmpFile env name σ).1 ∈ tmpList (tmpFile env name σ).2 := by
  rw [tmpList, tmpFile_tmpFiles]
  simp

/-- On a live session `tmpFile` keeps the prefix; on a fresh session it
draws the next random string as prefix and returns `prefix ++ name`. -/
theorem tmpFile_prefixing (env : Env) (name : String) (σ : St) :
    ((σ.tmpFiles ≠ none → (tmpFile env name σ).2.tmpPrefix = σ.tmpPrefix)
     ∧ (σ.tmpFiles = none →
          (tmpFile env name σ).2.tmpPrefix = env.randSupply σ.randCount
          ∧ (tmpFile env name σ).1 = env.randSupply σ.randCount ++ name)) := by
  unfold tmpFile
  cases hses : σ.tmpFiles with
  | none =>
    refine ⟨by simp, fun _ => ⟨by simp [nextRand], ?_⟩⟩
    simp [nextRand, tmpFileUniqueLoop]
  | some files =>
    exact ⟨fun _ => by simp, by simp⟩

/-- If the current session does not already contain `prefix ++ name`, the
call returns exactly `prefix ++ name` (no numeric suffix). -/
theorem tmpFile_no_suffix (env : Env) (name : String) (σ : St) (files : List String)
    (hses : σ.tmpFiles = some files) (hfree : σ.tmpPrefix ++ name ∉ files) :
    (tmpFile env name σ).1 = σ.tmpPrefix ++ name := by
  unfold tmpFile
  rw [hses]
  simp only [hses, Option.getD_some]
  have := tmpFileUniqueLoop_first_free files (σ.tmpPrefix ++ name) (files.length + 1) 0 0
    le_rfl (by omega) (by omega) (by rw [tmpCand_zero]; exact hfree)
  rw [tmpCand_zero] at this
  simpa using this

theorem read_foldl_unlinkCatch_none (l : List String) (fs : FS) (f : String)
    (h : fs.read f = none) : (l.foldl FS.unlinkCatch fs).read f = none := by
  induction l generalizing fs with
  | nil => exact h
  | cons g rest ih => exact ih _ (FS.read_unlinkCatch_none _ _ _ h)

theorem read_foldl_unlinkCatch_mem (l : List String) (fs : FS) (f : String)
    (h : f ∈ l) : (l.foldl FS.unlinkCatch fs).read f = none := by
  induction l generalizing fs with
  | nil => cases h
  | cons g rest ih =>
    rcases List.mem_cons.1 h with rfl | hmem
    · exact read_foldl_unlinkCatch_none rest _ _ (FS.read_unlinkCatch_self fs f)
    · exact ih _ hmem

/-- Next allocation when the session consists of exactly `k` allocations
of the same `name`: the loop walks past all `k` suffixes and returns the
candidate with suffix `k`. -/
theorem tmpFile_repeated (env : Env) (name : String) (σ : St) (k : Nat)
    (files : List String) (hses : σ.tmpFiles = some files)
    (hshape : files = (List.range k).map (tmpCand (σ.tmpPrefix ++ name))) :
    (tmpFile env name σ).1 = tmpCand (σ.tmpPrefix ++ name) k := by
  have hlen : files.length = k := by rw [hshape]; simp
  have hall : ∀ j, 0 ≤ j → j < k → tmpCand (σ.tmpPrefix ++ name) j ∈ files := by
    intro j _ hj
    rw [hshape]
    exact List.mem_map.2 ⟨j, List.mem_range.2 hj, rfl⟩
  have hfree : tmpCand (σ.tmpPrefix ++ name) k ∉ files := by
    rw [hshape]
    intro hmem
    rcases List.mem_map.1 hmem with ⟨j, hj, heq⟩
    have := tmpCand_inj (σ.tmpPrefix ++ name) heq
    rw [this] at hj
    exact absurd (List.mem_range.1 hj) (lt_irrefl k)
  unfold tmpFile
  rw [hses]
  simp only [hses, Option.getD_some]
  have := tmpFileUniqueLoop_first_free files (σ.tmpPrefix ++ name) (files.length + 1) 0 k
    (by omega) (by omega) hall hfree
  rw [tmpCand_zero] at this
  simpa using this

/-- C3, counterexample to the claim as stated.  Session trace: allocate
`"a"` (giving `pa`), allocate `"a"` again (giving `pa1`), then make the
*first* call for the distinct name `"a1"`.  The claim says the first call
for a name returns `prefix ++ name`, i.e. `pa1`; the code returns `pa11`
because the path `pa1` was already taken by the second allocation of
`"a"`. -/
theorem tmpFile_first_call_not_prefix_name :
    (tmpFile testEnv ("a1")
        (tmpFile testEnv ("a") (tmpFile testEnv ("a") initSt).2).2).1 = "pa11"
    ∧ "pa11" ≠ "p" ++ "a1" := by
  constructor
  · decide
  · decide

/-- C3, amended: every allocation returns a path distinct from all paths
previously allocated in the session.  The exact shapes hold whenever no
*other* name's allocation already produced the same string: the first
call for `n` returns `prefix ++ n` provided that path is not already
taken, and when the session consists of exactly `k` allocations of the
same name `n`, the next call returns `prefix ++ n` for `k = 0` and
`prefix ++ n ++ toString k` for `k ≥ 1` — so suffixes of a run of
same-name allocations increase from 1, and in particular two successive
allocations of one name from a fresh session yield `prefix ++ n` and then
the distinct suffixed path `prefix ++ n ++ "1"`. -/
theorem tmpFile_unique_paths (env : Env) (name : String) (σ : St) :
    ((tmpFile env name σ).1 ∉ tmpList σ)
    ∧ (∀ files, σ.tmpFiles = some files → σ.tmpPrefix ++ name ∉ files →
        (tmpFile env name σ).1 = σ.tmpPrefix ++ name)
    ∧ (∀ k files, σ.tmpFiles = some files →
        files = (List.range k).map (tmpCand (σ.tmpPrefix ++ name)) →
        (tmpFile env name σ).1 = tmpCand (σ.tmpPrefix ++ name) k
        ∧ (tmpFile env name σ).2.tmpFiles
            = some ((List.range (k + 1)).map (tmpCand (σ.tmpPrefix ++ name))))
    ∧ (σ.tmpFiles = none →
        (tmpFile env name σ).1 = env.randSupply σ.randCount ++ name
        ∧ (tmpFile env name (tmpFile env name σ).2).1
            = env.randSupply σ.randCount ++ name ++ Nat.repr 1
        ∧ env.randSupply σ.randCount ++ name ++ Nat.repr 1
            ≠ env.randSupply σ.randCount ++ name) := by
  refine ⟨tmpFile_fresh env name σ, ?_, ?_, ?_⟩
  · intro files hses hfree
    exact tmpFile_no_suffix env name σ files hses hfree
  · intro k files hses hshape
    refine ⟨tmpFile_repeated env name σ k files hses hshape, ?_⟩
    rw [tmpFile_tmpFiles, tmpList, hses]
    simp only [Option.getD_some]
    rw [tmpFile_repeated env name σ k files hses hshape, hshape, List.range_succ]
    simp
  · intro hses
    have h1 := (tmpFile_prefixing env name σ).2 hses
    refine ⟨h1.2, ?_, append_repr_ne_self _ 1⟩
    set σ1 := (tmpFile env name σ).2 with hσ1
    have hp : σ1.tmpPrefix = env.randSupply σ.randCount := h1.1
    have hf : σ1.tmpFiles = some [env.randSupply σ.randCount ++ name] := by
      rw [hσ1, tmpFile_tmpFiles, tmpList, hses, h1.2]
      rfl
    have := tmpFile_repeated env name σ1 1 [env.randSupply σ.randCount ++ name] hf
      (by rw [hp]; rfl)
    rw [this, tmpCand, if_neg (by omega), hp]

/-- Witness for the amended C3 theorem at the concrete test environment:
two successive allocations of `"key"` from a fresh registry give `pkey`
then `pkey1`. -/
theorem tmpFile_unique_paths_witness :
    (tmpFile testEnv ("key") initSt).1 = "pkey"
    ∧ (tmpFile testEnv ("key") (tmpFile testEnv ("key") initSt).2).1 = "pkey1"
    ∧ "pkey1" ≠ "pkey" := by
  have h := (tmpFile_unique_paths testEnv ("key") initSt).2.2.2 rfl
  refine ⟨h.1.trans (by decide), h.2.1.trans (by decide), by decide⟩

/-- C4: `tmpClear` (i) empties the registry, (ii) removes every path
allocated in the session from the file system (a path that was never
created is simply skipped — deletion failures are swallowed, the function
is total), (iii) is a no-op when nothing was allocated, (iv) is a no-op
when called twice in a row, and (v) a later `tmpFile` starts a fresh
session whose prefix is the next random draw. -/
theorem tmpClear_spec (env : Env) (σ : St) :
    ((tmpClear σ).tmpFiles = none)
    ∧ (∀ f ∈ tmpList σ, (tmpClear σ).fs.read f = none)
    ∧ (σ.tmpFiles = none → tmpClear σ = { σ with clearCount := σ.clearCount + 1 })
    ∧ (tmpClear (tmpClear σ)
        = { tmpClear σ with clearCount := (tmpClear σ).clearCount + 1 })
    ∧ (∀ name, (tmpFile env name (tmpClear σ)).1
          = env.randSupply (tmpClear σ).randCount ++ name
        ∧ (tmpFile env name (tmpClear σ)).2.tmpPrefix
            = env.randSupply (tmpClear σ).randCount) := by
  have hclears : (tmpClear σ).tmpFiles = none := by
    unfold tmpClear
    cases σ.tmpFiles <;> simp
  refine ⟨hclears, ?_, ?_, ?_, ?_⟩
  · intro f hf
    rw [tmpList] at hf
    unfold tmpClear
    cases hses : σ.tmpFiles with
    | none =>
      rw [hses] at hf
      cases hf
    | some files =>
      rw [hses] at hf
      simp only [Option.getD_some] at hf
      exact read_foldl_unlinkCatch_mem files σ.fs f hf
  · intro hses
    unfold tmpClear
    rw [hses]
  · unfold tmpClear
    cases hses : σ.tmpFiles <;> simp
  · intro name
    have h := (tmpFile_prefixing env name (tmpClear σ)).2 hclears
    exact ⟨h.2, h.1⟩

/-- Witness for C4 at a concrete state: after allocating `"key"` and
writing the file, `tmpClear` leaves a state with no session, with the
allocated path gone from the file system, and a second `tmpClear` is a
no-op. -/
theorem tmpClear_spec_witness :
    (tmpClear clearWitnessSt).tmpFiles = none
    ∧ (tmpClear clearWitnessSt).fs.read ("pkey") = none
    ∧ tmpClear (tmpClear clearWitnessSt)
        = { tmpClear clearWitnessSt with
            clearCount := (tmpClear clearWitnessSt).clearCount + 1 } := by
  have h := tmpClear_spec testEnv clearWitnessSt
  refine ⟨h.1, ?_, h.2.2.2.1⟩
  exact h.2.1 ("pkey") (by decide)

theorem tmpClear_cachedConfPaths (σ : St) :
    (tmpClear σ).cachedConfPaths = σ.cachedConfPaths := by
  unfold tmpClear
  cases σ.tmpFiles <;> rfl

theorem tmpFile_preserves (env : Env) (name : String) (σ : St) :
    (tmpFile env name σ).2.cachedConfPaths = σ.cachedConfPaths
    ∧ (tmpFile env name σ).2.fs = σ.fs
    ∧ (tmpFile env name σ).2.cachedRoot = σ.cachedRoot
    ∧ (tmpFile env name σ).2.sigLog = σ.sigLog
    ∧ (tmpFile env name σ).2.execLog = σ.execLog
    ∧ (tmpFile env name σ).2.execCount = σ.execCount
    ∧ (tmpFile env name σ).2.rndFile = σ.rndFile := by
  unfold tmpFile
  cases hses : σ.tmpFiles <;> simp [nextRand]

/-- C5: the configuration builder is idempotent per common name.  A call
that hits the cache returns the cached configuration path with the state
*completely unchanged* — no allocation, no write.  A call that misses
allocates exactly the config, database and serial files, writes all
three, caches the configuration under the CN, and any subsequent call for
the same CN returns the identical path without touching the state. -/
theorem generateOpensslConf_idempotent (env : Env) (σ : St) (commonName : String) :
    (∀ conf, lookupConf σ.cachedConfPaths commonName = some conf →
       generateOpensslConf env commonName σ = (conf.confPath, σ))
    ∧ (lookupConf σ.cachedConfPaths commonName = none →
       ∃ db serial,
         (generateOpensslConf env commonName σ).2.tmpFiles
           = some (tmpList σ ++ [(generateOpensslConf env commonName σ).1, db, serial])
         ∧ lookupConf (generateOpensslConf env commonName σ).2.cachedConfPaths commonName
             = some ⟨commonName, (generateOpensslConf env commonName σ).1, db, serial⟩
         ∧ (generateOpensslConf env commonName σ).2.fs.read
             (generateOpensslConf env commonName σ).1
             = some (normalizeLinebreaks (linebreakOf env.platform)
                 (opensslConfTemplate commonName db serial))
         ∧ (generateOpensslConf env commonName σ).2.fs.read db = some ("")
         ∧ (∃ seed, (generateOpensslConf env commonName σ).2.fs.read serial = some seed)
         ∧ generateOpensslConf env commonName (generateOpensslConf env commonName σ).2
             = ((generateOpensslConf env commonName σ).1,
                (generateOpensslConf env commonName σ).2)) := by
  constructor
  · intro conf hconf
    unfold generateOpensslConf
    rw [hconf]
  · intro hnone
    rcases h1 : tmpFile env ("openssl.conf") σ with ⟨confPath, σ1⟩
    rcases h2 : tmpFile env ("index.txt") σ1 with ⟨databasePath, σ2⟩
    rcases h3 : tmpFile env ("serial") σ2 with ⟨serialPath, σ3⟩
    have ht1 : σ1.tmpFiles = some (tmpList σ ++ [confPath]) := by
      have := tmpFile_tmpFiles env ("openssl.conf") σ
      rw [h1] at this
      exact this
    have ht2 : σ2.tmpFiles = some (tmpList σ1 ++ [databasePath]) := by
      have := tmpFile_tmpFiles env ("index.txt") σ1
      rw [h2] at this
      exact this
    have ht3 : σ3.tmpFiles = some (tmpList σ2 ++ [serialPath]) := by
      have := tmpFile_tmpFiles env ("serial") σ2
      rw [h3] at this
      exact this
    have hm1 : confPath ∈ tmpList σ1 := by
      have := tmpFile_mem env ("openssl.conf") σ
      rw [h1] at this
      exact this
    have hm2 : databasePath ∈ tmpList σ2 := by
      have := tmpFile_mem env ("index.txt") σ1
      rw [h2] at this
      exact this
    have hf2 : databasePath ∉ tmpList σ1 := by
      have := tmpFile_fresh env ("index.txt") σ1
      rw [h2] at this
      exact this
    have hf3 : serialPath ∉ tmpList σ2 := by
      have := tmpFile_fresh env ("serial") σ2
      rw [h3] at this
      exact this
    have hm1' : confPath ∈ tmpList σ2 := by
      rw [tmpList, ht2]
      exact List.mem_append_left _ hm1
    have hcd : confPath ≠ databasePath := fun h => hf2 (h ▸ hm1)
    have hcs : confPath ≠ serialPath := fun h => hf3 (h ▸ hm1')
    have hds : databasePath ≠ serialPath := fun h => hf3 (h ▸ hm2)
    have hgen : generateOpensslConf env commonName σ =
        (confPath,
         { σ3 with
           randCount := σ3.randCount + 1,
           fs := ((σ3.fs.write confPath
               (normalizeLinebreaks (linebreakOf env.platform)
                 (opensslConfTemplate commonName databasePath serialPath))).write
               databasePath ("")).write serialPath (env.randSupply σ3.randCount),
           cachedConfPaths :=
             (commonName, ⟨commonName, confPath, databasePath, serialPath⟩)
               :: σ3.cachedConfPaths }) := by
      simp only [generateOpensslConf, hnone, h1, h2, h3, nextRand]
    rw [hgen]
    refine ⟨databasePath, serialPath, ?_, ?_, ?_, ?_, ⟨env.randSupply σ3.randCount, ?_⟩, ?_⟩
    · show σ3.tmpFiles = some (tmpList σ ++ [confPath, databasePath, serialPath])
      rw [ht3, tmpList, ht2, tmpList, ht1]
      simp
    · show lookupConf ((commonName, ⟨commonName, confPath, databasePath, serialPath⟩)
          :: σ3.cachedConfPaths) commonName = _
      unfold lookupConf
      rw [List.find?_cons_of_pos _ (by simp)]
      rfl
    · show (((σ3.fs.write confPath _).write databasePath _).write serialPath _).read confPath = _
      rw [FS.read_write_other _ _ _ _ hcs, FS.read_write_other _ _ _ _ hcd, FS.read_write_self]
    · show (((σ3.fs.write confPath _).write databasePath _).write serialPath _).read databasePath = _
      rw [FS.read_write_other _ _ _ _ hds, FS.read_write_self]
    · exact FS.read_write_self _ _ _
    · unfold generateOpensslConf
      rw [show lookupConf ((commonName, ⟨commonName, confPath, databasePath, serialPath⟩)
            :: σ3.cachedConfPaths) commonName
          = some ⟨commonName, confPath, databasePath, serialPath⟩ by
        unfold lookupConf
        rw [List.find?_cons_of_pos _ (by simp)]
        rfl]

/-- Witness for C5: a first call for `example.test` from the initial
state, followed by a second call, returns the same path `popenssl.conf`
and leaves the state of the first call untouched. -/
theorem generateOpensslConf_idempotent_witness :
    (generateOpensslConf testEnv ("example.test") initSt).1 = "popenssl.conf"
    ∧ generateOpensslConf testEnv ("example.test")
        (generateOpensslConf testEnv ("example.test") initSt).2
      = ((generateOpensslConf testEnv ("example.test") initSt).1,
         (generateOpensslConf testEnv ("example.test") initSt).2) := by
  have h := (generateOpensslConf_idempotent testEnv initSt ("example.test")).2 (by decide)
  rcases h with ⟨db, serial, -, -, -, -, -, hidem⟩
  exact ⟨by decide, hidem⟩

/-- C10: `tmpClear` does not invalidate the per-CN configuration cache.
After a first build for a CN and a subsequent `tmpClear`, the next
`generateOpensslConf` call for that CN returns the previously cached path
with the state unchanged — no file is recreated — while the underlying
config, database and serial files have been deleted, so the returned
configuration references files that no longer exist. -/
theorem confCache_survives_tmpClear (env : Env) (σ : St) (commonName : String)
    (hnone : lookupConf σ.cachedConfPaths commonName = none) :
    ∃ db serial,
      (generateOpensslConf env commonName σ).2.tmpFiles
        = some (tmpList σ ++ [(generateOpensslConf env commonName σ).1, db, serial])
      ∧ generateOpensslConf env commonName
          (tmpClear (generateOpensslConf env commonName σ).2)
        = ((generateOpensslConf env commonName σ).1,
           tmpClear (generateOpensslConf env commonName σ).2)
      ∧ (tmpClear (generateOpensslConf env commonName σ).2).fs.read
          (generateOpensslConf env commonName σ).1 = none
      ∧ (tmpClear (generateOpensslConf env commonName σ).2).fs.read db = none
      ∧ (tmpClear (generateOpensslConf env commonName σ).2).fs.read serial = none := by
  obtain ⟨db, serial, hfiles, hlookup, -, -, -, -⟩ :=
    (generateOpensslConf_idempotent env σ commonName).2 hnone
  have hlist : tmpList (generateOpensslConf env commonName σ).2
      = tmpList σ ++ [(generateOpensslConf env commonName σ).1, db, serial] := by
    rw [tmpList, hfiles]
    rfl
  have hclear := tmpClear_spec env (generateOpensslConf env commonName σ).2
  refine ⟨db, serial, hfiles, ?_, ?_, ?_, ?_⟩
  · have hlk2 : lookupConf
        (tmpClear (generateOpensslConf env commonName σ).2).cachedConfPaths commonName
        = some ⟨commonName, (generateOpensslConf env commonName σ).1, db, serial⟩ := by
      rw [tmpClear_cachedConfPaths]
      exact hlookup
    exact (generateOpensslConf_idempotent env
      (tmpClear (generateOpensslConf env commonName σ).2) commonName).1 _ hlk2
  · exact hclear.2.1 _ (by rw [hlist]; simp)
  · exact hclear.2.1 _ (by rw [hlist]; simp)
  · exact hclear.2.1 _ (by rw [hlist]; simp)

/-- Witness for C10: concretely, after building the configuration for
`example.test` and clearing, the second build returns the same
`popenssl.conf` path without recreating the (now deleted) file. -/
theorem confCache_survives_tmpClear_witness :
    generateOpensslConf testEnv ("example.test")
        (tmpClear (generateOpensslConf testEnv ("example.test") initSt).2)
      = ((generateOpensslConf testEnv ("example.test") initSt).1,
         tmpClear (generateOpensslConf testEnv ("example.test") initSt).2)
    ∧ (tmpClear (generateOpensslConf testEnv ("example.test") initSt).2).fs.read
        (generateOpensslConf testEnv ("example.test") initSt).1 = none := by
  obtain ⟨db, serial, -, h1, h2, -, -⟩ :=
    confCache_survives_tmpClear testEnv initSt ("example.test") (by decide)
  exact ⟨h1, h2⟩

theorem exec_state (env : Env) (cmd : String) (σ : St) :
    (exec env cmd σ).2
      = { σ with execCount := σ.execCount + 1, execLog := σ.execLog ++ [cmd] } := by
  unfold exec runExec
  rcases ho : (env.execSupply σ.execCount).error with _ | e <;> simp [ho]

/-- Rewriting lemma: `openssl` is `exec` on the state with the RANDFILE path set. -/
theorem openssl_eq (env : Env) (cmd : String) (σ : St) :
    openssl env cmd σ = exec env ("openssl " ++ cmd)
      (match σ.rndFile with
       | none => (match tmpFile env ("rnd") σ with
                  | (f, σ1) => { σ1 with rndFile := some f })
       | some _ => σ) := rfl

theorem openssl_preserves (env : Env) (cmd : String) (σ : St) :
    (openssl env cmd σ).2.cachedRoot = σ.cachedRoot
    ∧ (openssl env cmd σ).2.sigLog = σ.sigLog
    ∧ (openssl env cmd σ).2.fs = σ.fs
    ∧ (openssl env cmd σ).2.cachedConfPaths = σ.cachedConfPaths := by
  rw [openssl_eq]
  cases hr : σ.rndFile with
  | some f =>
    rw [exec_state]
    exact ⟨rfl, rfl, rfl, rfl⟩
  | none =>
    rcases htf : tmpFile env ("rnd") σ with ⟨f, σ1⟩
    have hp := tmpFile_preserves env ("rnd") σ
    rw [htf] at hp
    rw [exec_state]
    exact ⟨hp.2.2.1, hp.2.2.2.1, hp.2.1, hp.1⟩

theorem exec_ok_supply (env : Env) (cmd : String) (σ : St) (out : ExecOutcome) (σ2 : St)
    (h : exec env cmd σ = (.ok out, σ2)) : out = env.execSupply σ.execCount := by
  simp only [exec, runExec] at h
  rcases he : (env.execSupply σ.execCount).error with _ | e
  · rw [he] at h
    injection h with h1 _
    injection h1 with h1
    exact h1.symm
  · rw [he] at h
    injection h with h1 _
    cases h1

theorem openssl_ok_supply (env : Env) (cmd : String) (σ : St) (out : ExecOutcome) (σ2 : St)
    (h : openssl env cmd σ = (.ok out, σ2)) : ∃ i, out = env.execSupply i := by
  rw [openssl_eq] at h
  exact ⟨_, exec_ok_supply env _ _ out σ2 h⟩

/-- Behavior of `generateKey` on every path: on success the returned key
file holds exactly the (non-empty) cached key bytes, the certificate part
of the CA record and the signing log are untouched, and an already-cached
key is never replaced; on failure the CA record and signing log are
untouched. -/
theorem generateKey_spec (env : Env) (σ : St) (hwb : WellBehaved env) :
    (∀ kf σ', generateKey env σ = (.ok kf, σ') →
       σ'.fs.read kf = some σ'.cachedRoot.key
       ∧ σ'.cachedRoot.key ≠ ""
       ∧ σ'.cachedRoot.cert = σ.cachedRoot.cert
       ∧ σ'.cachedRoot.commonName = σ.cachedRoot.commonName
       ∧ σ'.sigLog = σ.sigLog
       ∧ (σ.cachedRoot.key ≠ "" → σ'.cachedRoot.key = σ.cachedRoot.key))
    ∧ (∀ e σ', generateKey env σ = (.error e, σ') →
       σ'.cachedRoot = σ.cachedRoot ∧ σ'.sigLog = σ.sigLog) := by
  rcases htf : tmpFile env ("key") σ with ⟨keyFile, σ1⟩
  have hp := tmpFile_preserves env ("key") σ
  rw [htf] at hp
  obtain ⟨-, -, hroot1, hsig1, -, -, -⟩ := hp
  by_cases hkey : σ1.cachedRoot.key ≠ ""
  · constructor
    · intro kf σ' hrun
      simp only [generateKey, htf] at hrun
      rw [if_pos hkey] at hrun
      injection hrun with h1 h2
      injection h1 with h1
      subst h1
      subst h2
      refine ⟨?_, ?_, ?_, ?_, ?_, ?_⟩
      · show (σ1.fs.write keyFile σ1.cachedRoot.key).read keyFile = _
        rw [FS.read_write_self]
      · exact hkey
      · rw [hroot1]
      · rw [hroot1]
      · exact hsig1
      · intro _
        rw [hroot1]
    · intro e σ' hrun
      simp only [generateKey, htf] at hrun
      rw [if_pos hkey] at hrun
      cases hrun
  · constructor
    · intro kf σ' hrun
      simp only [generateKey, htf] at hrun
      rw [if_neg hkey] at hrun
      rcases hop : openssl env ("genrsa -out " ++ keyFile ++ " 2048") σ1 with ⟨res, σ2⟩
      rw [hop] at hrun
      have hpo := openssl_preserves env ("genrsa -out " ++ keyFile ++ " 2048") σ1
      rw [hop] at hpo
      obtain ⟨hroot2, hsig2, -, -⟩ := hpo
      cases res with
      | error e => cases hrun
      | ok out =>
        obtain ⟨i, hi⟩ := openssl_ok_supply env _ σ1 out σ2 hop
        simp only [FS.read_write_self] at hrun
        injection hrun with h1 h2
        injection h1 with h1
        subst h1
        subst h2
        refine ⟨?_, ?_, ?_, ?_, ?_, ?_⟩
        · show ((σ2.fs.write keyFile out.outFile)).read keyFile = some out.outFile
          rw [FS.read_write_self]
        · show out.outFile ≠ ""
          rw [hi]
          exact hwb i
        · show σ2.cachedRoot.cert = σ.cachedRoot.cert
          rw [hroot2, hroot1]
        · show σ2.cachedRoot.commonName = σ.cachedRoot.commonName
          rw [hroot2, hroot1]
        · show σ2.sigLog = σ.sigLog
          rw [hsig2, hsig1]
        · intro hne
          exfalso
          exact hne (by
            have h1 : σ1.cachedRoot = σ.cachedRoot := hroot1
            rw [← h1]
            exact not_not.mp hkey)
    · intro e σ' hrun
      simp only [generateKey, htf] at hrun
      rw [if_neg hkey] at hrun
      rcases hop : openssl env ("genrsa -out " ++ keyFile ++ " 2048") σ1 with ⟨res, σ2⟩
      rw [hop] at hrun
      have hpo := openssl_preserves env ("genrsa -out " ++ keyFile ++ " 2048") σ1
      rw [hop] at hpo
      obtain ⟨hroot2, hsig2, -, -⟩ := hpo
      cases res with
      | error e2 =>
        injection hrun with h1 h2
        subst h2
        rw [hroot2, hroot1, hsig2, hsig1]
        exact ⟨rfl, rfl⟩
      | ok out =>
        simp only [FS.read_write_self] at hrun
        cases hrun

theorem RootInv_transport (σ σ' : St)
    (hc : σ'.cachedRoot.cert = σ.cachedRoot.cert)
    (hn : σ'.cachedRoot.commonName = σ.cachedRoot.commonName)
    (hk : σ.cachedRoot.key ≠ "" → σ'.cachedRoot.key = σ.cachedRoot.key)
    (hs : σ'.sigLog = σ.sigLog)
    (h : RootInv σ) : RootInv σ' := by
  rcases h with ⟨h1, h2⟩ | ⟨h1, e, he, h2, h3, h4⟩
  · exact Or.inl ⟨by rw [hn, h1], by rw [hc, h2]⟩
  · refine Or.inr ⟨by rw [hk h1]; exact h1, e, by rw [hs]; exact he, by rw [hn]; exact h2,
      by rw [hc]; exact h3, by rw [hk h1]; exact h4⟩

/-- Behavior of `generateRootCertificate` on every path, given a
well-behaved toolkit and a consistent cache: the consistency invariant is
preserved; on success, the cache was hit (no new self-signing invocation)
precisely when the cached CN equals the requested CN, a hit leaves the
record untouched and writes the cached certificate to the returned path,
and a miss records exactly one self-signing invocation whose CN is the
requested one and updates the cached certificate and CN together with it,
the invocation's key input being exactly the cached key; on failure no
partial cache update is observable. -/
theorem generateRootCertificate_spec (env : Env) (σ : St) (commonName opensslConfPath : String)
    (hwb : WellBehaved env) (hinv : RootInv σ) :
    RootInv (generateRootCertificate env commonName opensslConfPath σ).2
    ∧ (∀ pair σ', generateRootCertificate env commonName opensslConfPath σ = (.ok pair, σ') →
        (σ'.sigLog = σ.sigLog ↔ σ.cachedRoot.commonName = commonName)
        ∧ (σ.cachedRoot.commonName = commonName →
            σ'.cachedRoot.cert = σ.cachedRoot.cert
            ∧ σ'.cachedRoot.commonName = σ.cachedRoot.commonName
            ∧ σ'.fs.read pair.certFilePath = some σ.cachedRoot.cert)
        ∧ (σ.cachedRoot.commonName ≠ commonName →
            ∃ e, σ'.sigLog = e :: σ.sigLog
              ∧ e.commonName = commonName
              ∧ σ'.cachedRoot.commonName = commonName
              ∧ σ'.cachedRoot.cert = e.certBytes
              ∧ e.keyBytes = σ'.cachedRoot.key))
    ∧ (∀ e σ', generateRootCertificate env commonName opensslConfPath σ = (.error e, σ') →
        σ'.cachedRoot.cert = σ.cachedRoot.cert
        ∧ σ'.cachedRoot.commonName = σ.cachedRoot.commonName
        ∧ σ'.sigLog = σ.sigLog) := by
  rcases htf : tmpFile env (commonName ++ ".crt") σ with ⟨certFilePath, σ1⟩
  have hp1 := tmpFile_preserves env (commonName ++ ".crt") σ
  rw [htf] at hp1
  have hroot1 : σ1.cachedRoot = σ.cachedRoot := hp1.2.2.1
  have hsig1 : σ1.sigLog = σ.sigLog := hp1.2.2.2.1
  rcases hgk : generateKey env σ1 with ⟨rk, σ2⟩
  cases rk with
  | error e =>
    have hkerr := (generateKey_spec env σ1 hwb).2 e σ2 hgk
    have hrun : generateRootCertificate env commonName opensslConfPath σ = (.error e, σ2) := by
      simp only [generateRootCertificate, htf, hgk]
    refine ⟨?_, ?_, ?_⟩
    · rw [hrun]
      exact RootInv_transport σ σ2 (by rw [hkerr.1, hroot1]) (by rw [hkerr.1, hroot1])
        (fun _ => by rw [hkerr.1, hroot1]) (by rw [hkerr.2, hsig1]) hinv
    · intro pair σ' h
      rw [hrun] at h
      injection h with h1 _
      cases h1
    · intro e' σ' h
      rw [hrun] at h
      injection h with h1 h2
      injection h1 with h1
      subst h1
      subst h2
      exact ⟨by rw [hkerr.1, hroot1], by rw [hkerr.1, hroot1], by rw [hkerr.2, hsig1]⟩
  | ok keyFilePath =>
    have hks := (generateKey_spec env σ1 hwb).1 keyFilePath σ2 hgk
    have hcert2 : σ2.cachedRoot.cert = σ.cachedRoot.cert := by rw [hks.2.2.1, hroot1]
    have hcn2 : σ2.cachedRoot.commonName = σ.cachedRoot.commonName := by
      rw [hks.2.2.2.1, hroot1]
    have hsig2 : σ2.sigLog = σ.sigLog := by rw [hks.2.2.2.2.1, hsig1]
    have hkey2 : σ.cachedRoot.key ≠ "" → σ2.cachedRoot.key = σ.cachedRoot.key := by
      intro hne
      rw [hks.2.2.2.2.2 (by rw [hroot1]; exact hne), hroot1]
    by_cases hhit : σ2.cachedRoot.commonName = commonName
    · have hrun : generateRootCertificate env commonName opensslConfPath σ
          = (.ok ⟨certFilePath, keyFilePath⟩,
             { σ2 with fs := σ2.fs.write certFilePath σ2.cachedRoot.cert }) := by
        simp only [generateRootCertificate, htf, hgk, if_pos hhit]
      have hhitσ : σ.cachedRoot.commonName = commonName := by rw [← hcn2]; exact hhit
      refine ⟨?_, ?_, ?_⟩
      · rw [hrun]
        exact RootInv_transport σ _ (by show σ2.cachedRoot.cert = _; rw [hcert2])
          (by show σ2.cachedRoot.commonName = _; rw [hcn2])
          (fun hne => by show σ2.cachedRoot.key = _; rw [hkey2 hne])
          (by show σ2.sigLog = _; rw [hsig2]) hinv
      · intro pair σ' h
        rw [hrun] at h
        injection h with h1 h2
        injection h1 with h1
        subst h1
        subst h2
        refine ⟨iff_of_true (by show σ2.sigLog = _; rw [hsig2]) hhitσ, ?_, ?_⟩
        · intro _
          refine ⟨by show σ2.cachedRoot.cert = _; rw [hcert2],
                  by show σ2.cachedRoot.commonName = _; rw [hcn2], ?_⟩
          show (σ2.fs.write certFilePath σ2.cachedRoot.cert).read certFilePath = _
          rw [FS.read_write_self, hcert2]
        · intro hne
          exact absurd hhitσ hne
      · intro e σ' h
        rw [hrun] at h
        injection h with h1 _
        cases h1
    · have hmissσ : σ.cachedRoot.commonName ≠ commonName := by rw [← hcn2]; exact hhit
      rcases hop : openssl env ("req -config " ++ opensslConfPath ++ " -key " ++ keyFilePath
          ++ " -out " ++ certFilePath
          ++ " -new -subj \"/CN=" ++ commonName ++ "\" -x509 -days 7000 -extensions v3_ca") σ2
        with ⟨res, σ3⟩
      have hpo := openssl_preserves env ("req -config " ++ opensslConfPath ++ " -key "
          ++ keyFilePath ++ " -out " ++ certFilePath
          ++ " -new -subj \"/CN=" ++ commonName ++ "\" -x509 -days 7000 -extensions v3_ca") σ2
      rw [hop] at hpo
      have hroot3 : σ3.cachedRoot = σ2.cachedRoot := hpo.1
      have hsig3 : σ3.sigLog = σ2.sigLog := hpo.2.1
      cases res with
      | error e =>
        have hrun : generateRootCertificate env commonName opensslConfPath σ = (.error e, σ3) := by
          simp only [generateRootCertificate, htf, hgk, if_neg hhit, hop]
        refine ⟨?_, ?_, ?_⟩
        · rw [hrun]
          exact RootInv_transport σ σ3 (by rw [hroot3, hcert2]) (by rw [hroot3, hcn2])
            (fun hne => by rw [hroot3, hkey2 hne]) (by rw [hsig3, hsig2]) hinv
        · intro pair σ' h
          rw [hrun] at h
          injection h with h1 _
          cases h1
        · intro e' σ' h
          rw [hrun] at h
          injection h with h1 h2
          injection h1 with h1
          subst h1
          subst h2
          exact ⟨by rw [hroot3, hcert2], by rw [hroot3, hcn2], by rw [hsig3, hsig2]⟩
      | ok out =>
        have hrun : generateRootCertificate env commonName opensslConfPath σ
            = (.ok ⟨certFilePath, keyFilePath⟩,
               { σ3 with
                 fs := σ3.fs.write certFilePath out.outFile,
                 cachedRoot :=
                   { σ3.cachedRoot with cert := out.outFile, commonName := commonName },
                 sigLog := ⟨commonName, (σ2.fs.read keyFilePath).getD (""), out.outFile⟩
                   :: σ3.sigLog }) := by
          simp only [generateRootCertificate, htf, hgk, if_neg hhit, hop, FS.read_write_self]
        have hkeyBytes : (σ2.fs.read keyFilePath).getD ("") = σ2.cachedRoot.key := by
          rw [hks.1]
          rfl
        refine ⟨?_, ?_, ?_⟩
        · rw [hrun]
          refine Or.inr ⟨?_, ⟨commonName, (σ2.fs.read keyFilePath).getD (""), out.outFile⟩,
            List.mem_cons_self _ _, rfl, rfl, ?_⟩
          · show σ3.cachedRoot.key ≠ ""
            rw [hroot3]
            exact hks.2.1
          · show (σ2.fs.read keyFilePath).getD ("") = σ3.cachedRoot.key
            rw [hkeyBytes, hroot3]
        · intro pair σ' h
          rw [hrun] at h
          injection h with h1 h2
          injection h1 with h1
          subst h1
          subst h2
          have hcons : (⟨commonName, (σ2.fs.read keyFilePath).getD (""), out.outFile⟩ : SignEvent)
              :: σ3.sigLog ≠ σ.sigLog := by
            rw [hsig3, hsig2]
            intro hcontra
            have := congrArg List.length hcontra
            simp at this
          refine ⟨iff_of_false (by show _ :: σ3.sigLog = σ.sigLog → False; exact hcons) hmissσ,
            fun hcontra => absurd hcontra hmissσ, ?_⟩
          intro _
          refine ⟨⟨commonName, (σ2.fs.read keyFilePath).getD (""), out.outFile⟩,
            ?_, rfl, rfl, rfl, ?_⟩
          · show _ :: σ3.sigLog = _ :: σ.sigLog
            rw [hsig3, hsig2]
          · show (σ2.fs.read keyFilePath).getD ("") = σ3.cachedRoot.key
            rw [hkeyBytes, hroot3]
        · intro e σ' h
          rw [hrun] at h
          injection h with h1 _
          cases h1

theorem runRoots_inv (env : Env) (hwb : WellBehaved env) :
    ∀ (reqs : List (String × String)) (σ0 : St), RootInv σ0 → RootInv (runRoots env reqs σ0) := by
  intro reqs
  induction reqs with
  | nil =>
    intro σ0 h0
    exact h0
  | cons r rs ih =>
    intro σ0 h0
    exact ih _ ((generateRootCertificate_spec env σ0 r.1 r.2 hwb h0).1)

/-- C2: the CA cache never mixes key and certificate across CNs.  For
every sequence of `generateRootCertificate` calls from a consistent
state (with a well-behaved toolkit), the consistency invariant `RootInv`
holds at every reachable state; at any such state, a further successful
call hits the cache (performs no self-signing invocation) exactly when
the cached CN equals the requested CN, and on a miss records exactly one
self-signing invocation whose subject is the requested CN and whose key
input is the cached key bytes, updating the cached certificate bytes and
the cached CN together from that invocation. -/
theorem rootCA_cache_consistency (env : Env) (reqs : List (String × String)) (σ0 : St)
    (hwb : WellBehaved env) (h0 : RootInv σ0) :
    RootInv (runRoots env reqs σ0)
    ∧ (∀ commonName confPath pair σ',
        generateRootCertificate env commonName confPath (runRoots env reqs σ0)
          = (.ok pair, σ') →
        ((σ'.sigLog = (runRoots env reqs σ0).sigLog
            ↔ (runRoots env reqs σ0).cachedRoot.commonName = commonName)
         ∧ ((runRoots env reqs σ0).cachedRoot.commonName ≠ commonName →
             ∃ e, σ'.sigLog = e :: (runRoots env reqs σ0).sigLog
               ∧ e.commonName = commonName
               ∧ σ'.cachedRoot.commonName = commonName
               ∧ σ'.cachedRoot.cert = e.certBytes
               ∧ e.keyBytes = σ'.cachedRoot.key)
         ∧ RootInv σ')) := by
  have hreach := runRoots_inv env hwb reqs σ0 h0
  refine ⟨hreach, ?_⟩
  intro commonName confPath pair σ' h
  have hspec := generateRootCertificate_spec env (runRoots env reqs σ0) commonName confPath
    hwb hreach
  have hok := hspec.2.1 pair σ' h
  refine ⟨hok.1, hok.2.2, ?_⟩
  have := hspec.1
  rw [h] at this
  exact this

/-- Witness for C2: the concrete test environment is well-behaved, the
initial state is consistent, and the invariant holds after a concrete
two-CN request sequence. -/
theorem rootCA_cache_consistency_witness :
    WellBehaved testEnv
    ∧ RootInv initSt
    ∧ RootInv (runRoots testEnv
        [("example.test", "popenssl.conf"), ("other.test", "popenssl.conf")] initSt) := by
  have hwb : WellBehaved testEnv := fun i => by show ("K" : String) ≠ ""; decide
  have h0 : RootInv initSt := Or.inl ⟨rfl, rfl⟩
  exact ⟨hwb, h0, (rootCA_cache_consistency testEnv
    [("example.test", "popenssl.conf"), ("other.test", "popenssl.conf")] initSt hwb h0).1⟩

theorem exec_result_error (env : Env) (cmd : String) (σ : St) (e : String)
    (he : (env.execSupply σ.execCount).error = some e) : (exec env cmd σ).1 = .error e := by
  simp [exec, runExec, he]

theorem exec_result_ok (env : Env) (cmd : String) (σ : St)
    (he : (env.execSupply σ.execCount).error = none) :
    (exec env cmd σ).1 = .ok (env.execSupply σ.execCount) := by
  simp [exec, runExec, he]

theorem openssl_mid_execCount (env : Env) (σ : St) :
    (match σ.rndFile with
     | none => (match tmpFile env ("rnd") σ with
                | (f, σ1) => { σ1 with rndFile := some f })
     | some _ => σ).execCount = σ.execCount := by
  cases hr : σ.rndFile with
  | some f => rfl
  | none =>
    rcases htf : tmpFile env ("rnd") σ with ⟨f, σ1⟩
    have hp := tmpFile_preserves env ("rnd") σ
    rw [htf] at hp
    exact hp.2.2.2.2.2.1

theorem openssl_mid_execLog (env : Env) (σ : St) :
    (match σ.rndFile with
     | none => (match tmpFile env ("rnd") σ with
                | (f, σ1) => { σ1 with rndFile := some f })
     | some _ => σ).execLog = σ.execLog := by
  cases hr : σ.rndFile with
  | some f => rfl
  | none =>
    rcases htf : tmpFile env ("rnd") σ with ⟨f, σ1⟩
    have hp := tmpFile_preserves env ("rnd") σ
    rw [htf] at hp
    exact hp.2.2.2.2.1

theorem openssl_result_error (env : Env) (cmd : String) (σ : St) (e : String)
    (he : (env.execSupply σ.execCount).error = some e) : (openssl env cmd σ).1 = .error e := by
  rw [openssl_eq]
  apply exec_result_error
  rw [openssl_mid_execCount]
  exact he

theorem openssl_result_ok (env : Env) (cmd : String) (σ : St)
    (he : (env.execSupply σ.execCount).error = none) :
    (openssl env cmd σ).1 = .ok (env.execSupply σ.execCount) := by
  rw [openssl_eq]
  have := exec_result_ok env ("openssl " ++ cmd)
    (match σ.rndFile with
     | none => (match tmpFile env ("rnd") σ with
                | (f, σ1) => { σ1 with rndFile := some f })
     | some _ => σ) (by rw [openssl_mid_execCount]; exact he)
  rw [openssl_mid_execCount] at this
  exact this

/-- C7 counterexample to the claim as stated: an issuance-side toolkit
invocation (`openssl` wrapper of the issuance module, used for `genrsa`,
`req` and `ca`) that exits zero with an *empty stdout and a non-empty
stderr* resolves successfully — the empty-stdout/diagnostic-output rule
is applied only by the introspection module's wrapper. -/
theorem openssl_stderr_only_succeeds :
    (stderrOnlyEnv.execSupply 0).error = none
    ∧ (stderrOnlyEnv.execSupply 0).stdout = ""
    ∧ (stderrOnlyEnv.execSupply 0).stderr ≠ ""
    ∧ (openssl stderrOnlyEnv ("genrsa -out pkey 2048") initSt).1
        = .ok (stderrOnlyEnv.execSupply 0) := by
  refine ⟨rfl, rfl, by decide, ?_⟩
  exact openssl_result_ok stderrOnlyEnv ("genrsa -out pkey 2048") initSt rfl

/-- C7, amended: the *introspection* wrapper treats a zero-exit
invocation with empty stdout and non-empty stderr as a failure carrying
the stderr text, and surfaces reported errors; the *issuance* wrapper
surfaces failures exactly on a reported subprocess error (non-zero exit),
succeeding on a zero exit regardless of stderr; and neither wrapper
retries — each call spawns exactly one subprocess. -/
theorem toolkit_failure_semantics (env : Env) (cmd : String) (σ : St) :
    ((env.execSupply σ.execCount).error = none →
     (env.execSupply σ.execCount).stdout = "" →
     (env.execSupply σ.execCount).stderr ≠ "" →
       (opensslIntrospect env cmd σ).1 = .error (env.execSupply σ.execCount).stderr)
    ∧ (∀ e, (env.execSupply σ.execCount).error = some e →
        (opensslIntrospect env cmd σ).1 = .error e)
    ∧ (∀ e, (env.execSupply σ.execCount).error = some e →
        (openssl env cmd σ).1 = .error e)
    ∧ ((env.execSupply σ.execCount).error = none →
        (openssl env cmd σ).1 = .ok (env.execSupply σ.execCount))
    ∧ (opensslIntrospect env cmd σ).2.execLog = σ.execLog ++ [("openssl " ++ cmd)]
    ∧ (openssl env cmd σ).2.execLog = σ.execLog ++ [("openssl " ++ cmd)] := by
  refine ⟨?_, ?_, ?_, ?_, ?_, ?_⟩
  · intro he hso hse
    simp only [opensslIntrospect, runExec, he]
    rw [if_pos ⟨hso, hse⟩]
  · intro e he
    simp only [opensslIntrospect, runExec, he]
  · intro e he
    exact openssl_result_error env cmd σ e he
  · intro he
    exact openssl_result_ok env cmd σ he
  · simp only [opensslIntrospect, runExec]
    rcases he : (env.execSupply σ.execCount).error with _ | e
    · by_cases hc : (env.execSupply σ.execCount).stdout = ""
          ∧ (env.execSupply σ.execCount).stderr ≠ ""
      · rw [if_pos hc]
      · rw [if_neg hc]
    · rfl
  · rw [openssl_eq, exec_state]
    show (match σ.rndFile with
          | none => (match tmpFile env ("rnd") σ with
                     | (f, σ1) => { σ1 with rndFile := some f })
          | some _ => σ).execLog ++ _ = _
    rw [openssl_mid_execLog]

/-- Witness for the amended C7 theorem at concrete environments. -/
theorem toolkit_failure_semantics_witness :
    (opensslIntrospect stderrOnlyEnv ("x509 -purpose -noout") initSt).1
      = .error ("unable to load certificate")
    ∧ (openssl failEnv ("req -new") initSt).1 = .error ("Command failed: openssl req")
    ∧ (opensslIntrospect stderrOnlyEnv ("x509 -purpose -noout") initSt).2.execLog
        = ["openssl x509 -purpose -noout"] := by
  have h1 := toolkit_failure_semantics stderrOnlyEnv ("x509 -purpose -noout") initSt
  have h2 := toolkit_failure_semantics failEnv ("req -new") initSt
  refine ⟨?_, ?_, ?_⟩
  · exact h1.1 rfl rfl (by decide)
  · exact h2.2.2.1 ("Command failed: openssl req") rfl
  · have := h1.2.2.2.2.1
    simpa using this

theorem access_eq_true (env : Env) (p : String) (σ : St) (h : env.fileExists p = true) :
    access env p σ = (.ok (), { σ with accessLog := σ.accessLog ++ [p] }) := by
  simp [access, h]

theorem access_eq_false (env : Env) (p : String) (σ : St) (h : env.fileExists p = false) :
    access env p σ
      = (.error ("ENOENT: no such file " ++ p),
         { σ with accessLog := σ.accessLog ++ [p] }) := by
  simp [access, h]

theorem exec_eq_ok (env : Env) (cmd : String) (σ : St)
    (he : (env.execSupply σ.execCount).error = none) :
    exec env cmd σ = (.ok (env.execSupply σ.execCount),
      { σ with execCount := σ.execCount + 1, execLog := σ.execLog ++ [cmd] }) := by
  simp [exec, runExec, he]

theorem exec_eq_error (env : Env) (cmd : String) (σ : St) (e : String)
    (he : (env.execSupply σ.execCount).error = some e) :
    exec env cmd σ = (.error e,
      { σ with execCount := σ.execCount + 1, execLog := σ.execLog ++ [cmd] }) := by
  simp [exec, runExec, he]

theorem nssDirFallback_eq_absent (env : Env) (c r n dir : String) (σ : St)
    (h9 : env.fileExists (pathJoin dir ("cert9.db")) = false) :
    nssDirFallback env c r n dir σ
      = { σ with accessLog := σ.accessLog ++ [pathJoin dir ("cert9.db")] } := by
  simp only [nssDirFallback, access_eq_false env _ σ h9]

theorem nssDirFallback_eq_present (env : Env) (c r n dir : String) (σ : St)
    (h9 : env.fileExists (pathJoin dir ("cert9.db")) = true) :
    nssDirFallback env c r n dir σ
      = { σ with accessLog := σ.accessLog ++ [pathJoin dir ("cert9.db")],
                 execCount := σ.execCount + 1,
                 execLog := σ.execLog ++ [certutilModernCmd c r n dir] } := by
  simp only [nssDirFallback, access_eq_true env _ σ h9]
  rw [exec_state]

/-- C8 counterexample to the claim as stated.  In a directory holding
*both* markers whose legacy certutil invocation fails, the code also
attempts the modern-format invocation (the failed legacy attempt lands in
the catch block, which re-dispatches on `cert9.db`), whereas the claim
prescribes the legacy invocation alone whenever `cert8.db` is present. -/
theorem nssDirAttempt_both_markers_counterexample :
    (nssDirAttempt bothMarkersEnv ("certutil") ("/tmp/r.crt") ("example.test") ("/prof")
        initSt).execLog
      = [certutilLegacyCmd ("certutil") ("/tmp/r.crt") ("example.test") ("/prof"),
         certutilModernCmd ("certutil") ("/tmp/r.crt") ("example.test") ("/prof")]
    ∧ [certutilLegacyCmd ("certutil") ("/tmp/r.crt") ("example.test") ("/prof"),
       certutilModernCmd ("certutil") ("/tmp/r.crt") ("example.test") ("/prof")]
      ≠ [certutilLegacyCmd ("certutil") ("/tmp/r.crt") ("example.test") ("/prof")] := by
  constructor
  · rfl
  · intro h
    have := congrArg List.length h
    simp at this

theorem nssDirAttempt_accessLog_mono (env : Env) (c r n dir : String) (σ : St) :
    ∃ l, (nssDirAttempt env c r n dir σ).accessLog
      = σ.accessLog ++ (pathJoin dir ("cert8.db") :: l) := by
  cases h8 : env.fileExists (pathJoin dir ("cert8.db")) with
  | false =>
    cases h9 : env.fileExists (pathJoin dir ("cert9.db")) with
    | false =>
      refine ⟨[pathJoin dir ("cert9.db")], ?_⟩
      simp [nssDirAttempt, access_eq_false, nssDirFallback_eq_absent, h8, h9]
    | true =>
      refine ⟨[pathJoin dir ("cert9.db")], ?_⟩
      simp [nssDirAttempt, access_eq_false, nssDirFallback_eq_present, h8, h9]
  | true =>
    rcases he : (env.execSupply σ.execCount).error with _ | e
    · refine ⟨[], ?_⟩
      simp [nssDirAttempt, access_eq_true, exec_eq_ok, h8, he]
    · cases h9 : env.fileExists (pathJoin dir ("cert9.db")) with
      | false =>
        refine ⟨[pathJoin dir ("cert9.db")], ?_⟩
        simp [nssDirAttempt, access_eq_true, exec_eq_error, nssDirFallback_eq_absent, h8, h9, he]
      | true =>
        refine ⟨[pathJoin dir ("cert9.db")], ?_⟩
        simp [nssDirAttempt, access_eq_true, exec_eq_error, nssDirFallback_eq_present, h8, h9, he]

theorem foldl_nss_attempts_all (env : Env) (c r n : String) :
    ∀ (dirs : List String) (σ0 : St) (d : String), d ∈ dirs →
      pathJoin d ("cert8.db") ∈
        (dirs.foldl (fun σ dir => nssDirAttempt env c r n dir σ) σ0).accessLog := by
  intro dirs
  induction dirs with
  | nil =>
    intro σ0 d hd
    cases hd
  | cons d0 rest ih =>
    intro σ0 d hd
    rcases List.mem_cons.1 hd with rfl | hmem
    · rw [List.foldl_cons]
      have hmono : ∀ (σ : St) (x : String), x ∈ σ.accessLog →
          ∀ (dirs2 : List String),
            x ∈ (dirs2.foldl (fun σ dir => nssDirAttempt env c r n dir σ) σ).accessLog := by
        intro σ x hx dirs2
        induction dirs2 generalizing σ with
        | nil => exact hx
        | cons d2 rest2 ih2 =>
          rw [List.foldl_cons]
          apply ih2
          obtain ⟨l, hl⟩ := nssDirAttempt_accessLog_mono env c r n d2 σ
          rw [hl]
          exact List.mem_append_left _ hx
      apply hmono
      obtain ⟨l, hl⟩ := nssDirAttempt_accessLog_mono env c r n d σ0
      rw [hl]
      exact List.mem_append_right _ (List.mem_cons_self _ _)
    · rw [List.foldl_cons]
      exact ih _ d hmem

/-- C8, amended: per candidate directory — a directory with neither
marker is skipped with no toolkit invocation and no error (only the ghost
existence checks are recorded); a directory with the legacy marker gets
the legacy-format invocation, and when that invocation fails the catch
block falls back to the modern-format invocation provided the modern
marker is also present (the failure itself is swallowed either way); a
directory with only the modern marker gets the modern-format invocation
with the `sql:` backend prefix, its failure likewise swallowed; and the
per-directory attempts are independent — every directory in the expansion
is attempted no matter how the attempts on the others fare. -/
theorem nss_install_dispatch (env : Env) (c r n dir : String) (σ : St) :
    (env.fileExists (pathJoin dir ("cert8.db")) = false →
     env.fileExists (pathJoin dir ("cert9.db")) = false →
       nssDirAttempt env c r n dir σ
         = { σ with accessLog := σ.accessLog
              ++ [pathJoin dir ("cert8.db"), pathJoin dir ("cert9.db")] })
    ∧ (env.fileExists (pathJoin dir ("cert8.db")) = true →
       (env.execSupply σ.execCount).error = none →
        (nssDirAttempt env c r n dir σ).execLog
          = σ.execLog ++ [certutilLegacyCmd c r n dir])
    ∧ (∀ e, env.fileExists (pathJoin dir ("cert8.db")) = true →
       (env.execSupply σ.execCount).error = some e →
        (nssDirAttempt env c r n dir σ).execLog
          = (σ.execLog ++ [certutilLegacyCmd c r n dir])
            ++ (if env.fileExists (pathJoin dir ("cert9.db")) then [certutilModernCmd c r n dir]
                else []))
    ∧ (env.fileExists (pathJoin dir ("cert8.db")) = false →
       env.fileExists (pathJoin dir ("cert9.db")) = true →
        (nssDirAttempt env c r n dir σ).execLog = σ.execLog ++ [certutilModernCmd c r n dir])
    ∧ (∀ (dirs : List String) (σ0 : St), ∀ d ∈ dirs,
        pathJoin d ("cert8.db") ∈
          (dirs.foldl (fun σ dir => nssDirAttempt env c r n dir σ) σ0).accessLog) := by
  refine ⟨?_, ?_, ?_, ?_, foldl_nss_attempts_all env c r n⟩
  · intro h8 h9
    simp [nssDirAttempt, access_eq_false, nssDirFallback_eq_absent, h8, h9]
  · intro h8 he
    simp [nssDirAttempt, access_eq_true, exec_eq_ok, h8, he]
  · intro e h8 he
    cases h9 : env.fileExists (pathJoin dir ("cert9.db")) with
    | false =>
      simp [nssDirAttempt, access_eq_true, exec_eq_error, nssDirFallback_eq_absent, h8, h9, he]
    | true =>
      simp [nssDirAttempt, access_eq_true, exec_eq_error, nssDirFallback_eq_present, h8, h9, he]
  · intro h8 h9
    simp [nssDirAttempt, access_eq_false, nssDirFallback_eq_present, h8, h9]

/-- Witness for the amended C8 theorem: a directory carrying only the
modern marker gets exactly the `sql:`-prefixed invocation, and a
markerless directory is skipped with no invocation at all. -/
theorem nss_install_dispatch_witness :
    (nssDirAttempt modernOnlyEnv ("certutil") ("/r.crt") ("example.test") ("/prof")
        initSt).execLog
      = [certutilModernCmd ("certutil") ("/r.crt") ("example.test") ("/prof")]
    ∧ (nssDirAttempt testEnv ("certutil") ("/r.crt") ("example.test") ("/prof") initSt
        = { initSt with accessLog := ["/prof/cert8.db", "/prof/cert9.db"] }) := by
  constructor
  · have h := (nss_install_dispatch modernOnlyEnv
      ("certutil") ("/r.crt") ("example.test") ("/prof") initSt).2.2.2.1
      (by decide) (by decide)
    simpa using h
  · have h := (nss_install_dispatch testEnv
      ("certutil") ("/r.crt") ("example.test") ("/prof") initSt).1 rfl rfl
    simpa using h

/-- C9: the Linux-style branch runs exactly the two copies and the bundle
rebuild, in order, but the first copy's target carries the stray brace of
the source (`/etc/ssl/certs/<commonName>.pem\x7d`), diverging from the
intended `/etc/ssl/certs/<commonName>.pem` — evaluated here at a concrete
common name and certificate path. -/
theorem addToLinuxTrustStores_pem_typo :
    (addToLinuxTrustStores onlyOpensslEnv ("example.test") ("/tmp/devcert-root.crt")
        initSt).2.execLog.take 3
      = ["sudo cp /tmp/devcert-root.crt /etc/ssl/certs/example.test.pem\x7d",
         "sudo cp /tmp/devcert-root.crt /usr/local/share/ca-certificates/example.test.crt",
         "sudo update-ca-certificates"]
    ∧ "sudo cp /tmp/devcert-root.crt /etc/ssl/certs/example.test.pem\x7d"
        ≠ "sudo cp /tmp/devcert-root.crt /etc/ssl/certs/example.test.pem" := by
  exact ⟨rfl, by decide⟩

/-- C6: `generateDevCert` fails fast — a missing openssl binary, or an
invalid common name (not 1–64 characters each matched by the validation
pattern), produces the descriptive error with the state untouched: no
ephemeral file is allocated and no other effect happens. -/
theorem generateDevCert_failfast (env : Env) (σ : St) (commonName : String) :
    (env.commandExistsP ("openssl") = false →
       generateDevCert env commonName σ
         = (.error ("Unable to find openssl - make sure it is installed and available in your PATH"), σ))
    ∧ (env.commandExistsP ("openssl") = true → validCommonName commonName = false →
       generateDevCert env commonName σ
         = (.error ("Invalid Common Name " ++ commonName ++ "."), σ)) := by
  constructor
  · intro h
    simp [generateDevCert, h]
  · intro h hv
    simp [generateDevCert, h, hv]

/-- Witness for C6: no openssl, and a common name of admissible length
containing a newline (which the pattern's `.`/`\.` alternatives both
reject). -/
theorem generateDevCert_failfast_witness :
    generateDevCert noOpensslEnv ("example.test") initSt
      = (.error ("Unable to find openssl - make sure it is installed and available in your PATH"),
         initSt)
    ∧ generateDevCert testEnv ("bad\nname") initSt
      = (.error ("Invalid Common Name bad\nname."), initSt) := by
  refine ⟨(generateDevCert_failfast noOpensslEnv initSt ("example.test")).1 rfl, ?_⟩
  exact (generateDevCert_failfast testEnv initSt ("bad\nname")).2 rfl (by decide)

theorem tmpClear_clearCount (σ : St) : (tmpClear σ).clearCount = σ.clearCount + 1 := by
  unfold tmpClear
  cases σ.tmpFiles <;> rfl

/-- C1: once the openssl-availability and common-name checks pass,
`generateDevCert` is the `try` body followed by `tmpClear` on *whatever*
state the body produced — the same equation covers the success exit and
every thrown failure, since the body's result (ok or error) is returned
alongside the cleared state.  Consequently the registry is empty at
return and every ephemeral file allocated during the operation is gone
from the file system before the call completes. -/
theorem generateDevCert_always_clears (env : Env) (σ : St) (commonName : String)
    (h1 : env.commandExistsP ("openssl") = true)
    (h2 : validCommonName commonName = true) :
    generateDevCert env commonName σ
      = ((generateDevCertBody env commonName σ).1,
         tmpClear (generateDevCertBody env commonName σ).2)
    ∧ (generateDevCert env commonName σ).2.tmpFiles = none
    ∧ (generateDevCert env commonName σ).2.clearCount
        = (generateDevCertBody env commonName σ).2.clearCount + 1
    ∧ (∀ f ∈ tmpList (generateDevCertBody env commonName σ).2,
        (generateDevCert env commonName σ).2.fs.read f = none) := by
  have hrun : generateDevCert env commonName σ
      = ((generateDevCertBody env commonName σ).1,
         tmpClear (generateDevCertBody env commonName σ).2) := by
    rcases hb : generateDevCertBody env commonName σ with ⟨r, σ1⟩
    simp [generateDevCert, h1, h2, hb]
  refine ⟨hrun, ?_, ?_, ?_⟩
  · rw [hrun]
    exact (tmpClear_spec env (generateDevCertBody env commonName σ).2).1
  · rw [hrun]
    exact tmpClear_clearCount _
  · intro f hf
    rw [hrun]
    exact (tmpClear_spec env (generateDevCertBody env commonName σ).2).2.1 f hf

/-- Witness for C1: a concrete run on the linux environment without
certutil — trust-store installation throws (`certutil not available`
propagates out of the unguarded Chromium NSS attempt), yet the registry
ends empty and all six ephemeral files allocated by the failed operation
(config, database, serial, root cert, key, RANDFILE) are deleted. -/
theorem generateDevCert_always_clears_witness :
    validCommonName ("example.test") = true
    ∧ (generateDevCert onlyOpensslEnv ("example.test") initSt).2.tmpFiles = none
    ∧ tmpList (generateDevCertBody onlyOpensslEnv ("example.test") initSt).2
        = ["popenssl.conf", "pindex.txt", "pserial", "pexample.test.crt", "pkey", "prnd"]
    ∧ (generateDevCert onlyOpensslEnv ("example.test") initSt).2.fs.read ("popenssl.conf") = none
    ∧ (generateDevCert onlyOpensslEnv ("example.test") initSt).2.fs.read ("pindex.txt") = none
    ∧ (generateDevCert onlyOpensslEnv ("example.test") initSt).2.fs.read ("pserial") = none
    ∧ (generateDevCert onlyOpensslEnv ("example.test") initSt).2.fs.read ("pexample.test.crt")
        = none
    ∧ (generateDevCert onlyOpensslEnv ("example.test") initSt).2.fs.read ("pkey") = none
    ∧ (generateDevCert onlyOpensslEnv ("example.test") initSt).2.fs.read ("prnd") = none := by
  have h := generateDevCert_always_clears onlyOpensslEnv initSt ("example.test") rfl (by decide)
  have hlist : tmpList (generateDevCertBody onlyOpensslEnv ("example.test") initSt).2
      = ["popenssl.conf", "pindex.txt", "pserial", "pexample.test.crt", "pkey", "prnd"] := rfl
  have hr := h.2.2.2
  rw [hlist] at hr
  exact ⟨by decide, h.2.1, hlist, hr _ (by decide), hr _ (by decide), hr _ (by decide),
    hr _ (by decide), hr _ (by decide), hr _ (by decide)⟩

end Devcert
